import Mathlib

/-!
Verification of the motion-control core of the klipper-for-cnc firmware host.

This development shallowly embeds the G-code movement frontend
(`klippy/extras/gcode_move.py`), the homing core (`klippy/extras/homing.py`),
the cartesian kinematics (`klippy/kinematics/cartesian_abc.py`) and the
extruder kinematics (`klippy/kinematics/extruder.py`).

Python floats are modelled as rationals (`ℚ`), MCU step counters as integers
(`ℤ`), Python lists as Lean `List`s (with `List.set` / `List.getD` for index
assignment and lookup, so that out-of-range accesses are total), and Python
dicts as association lists looked up with `List.lookup`.  Methods that mutate
`self` in place are modelled as functions from the relevant state to the new
state; a method that can raise returns the exception together with the state
as mutated up to the point of the raise, which mirrors the fact that a Python
exception leaves the partially mutated object behind.
-/

namespace Klipper

/-- The value of a Python `l[-1]` read, i.e. the last element of the list. -/
def lastQ (l : List ℚ) : ℚ := l.getD (l.length - 1) 0

/-! ## G-code movement frontend: `GCodeMove` (gcode_move.py)

The per-command state of the `GCodeMove` class.  `saved_states` is the
dictionary written by `SAVE_GCODE_STATE`; a Python dict write is modelled by
consing the new binding in front (`List.lookup` returns the newest binding). -/

/-- Snapshot stored by `cmd_SAVE_GCODE_STATE` (gcode_move.py lines 377-388).
The source stores `list(...)` copies of the three position vectors; in this
immutable embedding the snapshot holds the values of those lists. -/
structure SavedState where
  absolute_coord : Bool
  absolute_extrude : Bool
  base_position : List ℚ
  last_position : List ℚ
  homing_position : List ℚ
  speed : ℚ
  speed_factor : ℚ
  extrude_factor : ℚ
deriving DecidableEq, Repr

/-- The mutable coordinate state of the `GCodeMove` class (gcode_move.py). -/
structure GCodeMoveState where
  absolute_coord : Bool
  absolute_extrude : Bool
  base_position : List ℚ
  last_position : List ℚ
  homing_position : List ℚ
  speed : ℚ
  speed_factor : ℚ
  extrude_factor : ℚ
  saved_states : List (String × SavedState)
deriving DecidableEq, Repr

/-- Configuration consumed by `GCodeMove`: which non-extruder position slots
carry a configured axis letter (`axis_names`), and the
`relative_e_restore` printer option. -/
structure GCodeConfig where
  configured : List Bool
  relative_e_restore : Bool
deriving DecidableEq, Repr

/-- `_get_gcode_position` (gcode_move.py lines 194-197): element-wise
`last_position - base_position`, with the final (extruder) slot additionally
divided by `extrude_factor`. -/
def GCodeMoveState.gcode_position (st : GCodeMoveState) : List ℚ :=
  let p := List.zipWith (fun lp bp => lp - bp) st.last_position st.base_position
  p.set (p.length - 1) (p.getD (p.length - 1) 0 / st.extrude_factor)

/-- `_get_gcode_speed` (gcode_move.py lines 199-200). -/
def GCodeMoveState.gcode_speed (st : GCodeMoveState) : ℚ :=
  st.speed / st.speed_factor

/-- One iteration of the `cmd_G1` axis loop body (gcode_move.py lines 248-253):
relative mode adds `v` to `last_position[pos]`, absolute mode writes
`v + base_position[pos]`. -/
def applyAxis (st : GCodeMoveState) (pos : Nat) (v : ℚ) : GCodeMoveState :=
  if !st.absolute_coord then
    { st with last_position :=
        st.last_position.set pos (st.last_position.getD pos 0 + v) }
  else
    { st with last_position :=
        st.last_position.set pos (v + st.base_position.getD pos 0) }

/-- The `cmd_G1` loop over the non-extruder axes (gcode_move.py lines 242-253).
`pos` is the position-vector index of the head of `axes`.  A parameter for a
slot whose letter is not configured raises a command error; the error value
carries the state as mutated so far. -/
def g1_axes_loop (cfg : GCodeConfig) (st : GCodeMoveState) (pos : Nat) :
    List (Option ℚ) → Except GCodeMoveState GCodeMoveState
  | [] => .ok st
  | none :: rest => g1_axes_loop cfg st (pos + 1) rest
  | some v :: rest =>
    if cfg.configured.getD pos false then
      g1_axes_loop cfg (applyAxis st pos v) (pos + 1) rest
    else
      .error st

/-- The `cmd_G1` extruder-coordinate update (gcode_move.py lines 255-263). -/
def g1_apply_e (st : GCodeMoveState) : Option ℚ → GCodeMoveState
  | none => st
  | some e =>
    let v := e * st.extrude_factor
    let li := st.last_position.length - 1
    if !st.absolute_coord || !st.absolute_extrude then
      { st with last_position :=
          st.last_position.set li (st.last_position.getD li 0 + v) }
    else
      { st with last_position :=
          st.last_position.set li (v + st.base_position.getD (st.base_position.length - 1) 0) }

/-- The already-parsed parameters of a `G1`/`G0` command: one optional value
per non-extruder position slot, plus the optional `E` and `F` words. -/
structure G1Params where
  axes : List (Option ℚ)
  e : Option ℚ
  f : Option ℚ
deriving DecidableEq, Repr

/-- `cmd_G1` (gcode_move.py lines 234-282).  Returns the new state together
with the `(last_position, speed)` pair handed to `move_with_transform`; an
error result carries the error message and the state as mutated up to the
raise (axis updates happen before the `F` check). -/
def cmd_G1 (cfg : GCodeConfig) (st : GCodeMoveState) (p : G1Params) :
    Except (String × GCodeMoveState) (GCodeMoveState × List ℚ × ℚ) :=
  match g1_axes_loop cfg st 0 p.axes with
  | .error st1 => .error ("G1 error: you must configure the axis in order to use it.", st1)
  | .ok st1 =>
    let st2 := g1_apply_e st1 p.e
    match p.f with
    | some f =>
      if f ≤ 0 then
        .error ("Invalid speed", st2)
      else
        let st3 := { st2 with speed := f * st2.speed_factor }
        .ok (st3, st3.last_position, st3.speed)
    | none => .ok (st2, st2.last_position, st2.speed)

/-- The specification-side description of the `cmd_G1` coordinate updates:
every provided non-extruder axis slot gets `v + base` in absolute mode and
`last + v` in relative mode, and a provided `E` word is first scaled by
`extrude_factor` and uses absolute semantics only when both `absolute_coord`
and `absolute_extrude` hold. -/
def G1PosSpec (st : GCodeMoveState) (p : G1Params) (st2 : GCodeMoveState) : Prop :=
  (∀ i v, p.axes.get? i = some (some v) →
    st2.last_position.getD i 0 =
      if st.absolute_coord then v + st.base_position.getD i 0
      else st.last_position.getD i 0 + v)
  ∧ (∀ e, p.e = some e →
    st2.last_position.getD (st.last_position.length - 1) 0 =
      if st.absolute_coord ∧ st.absolute_extrude then
        e * st.extrude_factor + st.base_position.getD (st.base_position.length - 1) 0
      else
        st.last_position.getD (st.last_position.length - 1) 0 + e * st.extrude_factor)

/-- `cmd_G90` (gcode_move.py lines 301-304). -/
def cmd_G90 (st : GCodeMoveState) : GCodeMoveState := { st with absolute_coord := true }

/-- `cmd_G91` (gcode_move.py lines 305-308). -/
def cmd_G91 (st : GCodeMoveState) : GCodeMoveState := { st with absolute_coord := false }

/-- `cmd_M82` (gcode_move.py lines 293-296). -/
def cmd_M82 (st : GCodeMoveState) : GCodeMoveState := { st with absolute_extrude := true }

/-- `cmd_M83` (gcode_move.py lines 297-300). -/
def cmd_M83 (st : GCodeMoveState) : GCodeMoveState := { st with absolute_extrude := false }

/-- The `cmd_G92` loop (gcode_move.py lines 314-322).  `i` is the index of the
head of `offsets` and `n` the total number of axis slots; the last slot is the
extruder one and its value is scaled by `extrude_factor`. -/
def g92_loop (st : GCodeMoveState) (i n : Nat) : List (Option ℚ) → GCodeMoveState
  | [] => st
  | none :: rest => g92_loop st (i + 1) n rest
  | some off :: rest =>
    g92_loop
      { st with base_position :=
          st.base_position.set i (st.last_position.getD i 0 -
            (if i = n - 1 then off * st.extrude_factor else off)) }
      (i + 1) n rest

/-- `cmd_G92` (gcode_move.py lines 309-324).  `offsets` holds one optional
value per axis slot (extruder last); with no value at all, `base_position`
becomes a copy of `last_position`. -/
def cmd_G92 (st : GCodeMoveState) (offsets : List (Option ℚ)) : GCodeMoveState :=
  let st1 := g92_loop st 0 offsets.length offsets
  if offsets.all (fun o => o.isNone) then
    { st1 with base_position := st1.last_position }
  else
    st1

/-- `cmd_M220` (gcode_move.py lines 333-344): `value = (S/100)/60`; the speed
is rescaled through `_get_gcode_speed` before the factor is replaced. -/
def cmd_M220 (st : GCodeMoveState) (S : ℚ) : GCodeMoveState :=
  let value := S / 100 / 60
  { st with
    speed := st.gcode_speed * value
    speed_factor := value }

/-- `cmd_M221` (gcode_move.py lines 346-353). -/
def cmd_M221 (st : GCodeMoveState) (S : ℚ) : GCodeMoveState :=
  let new_extrude_factor := S / 100
  let last_e_pos := lastQ st.last_position
  let e_value := (last_e_pos - lastQ st.base_position) / st.extrude_factor
  { st with
    base_position :=
      st.base_position.set (st.base_position.length - 1)
        (last_e_pos - e_value * new_extrude_factor)
    extrude_factor := new_extrude_factor }

/-- One slot of the `cmd_SET_GCODE_OFFSET` loop (gcode_move.py lines 358-369):
an absolute `axis=` value, or a relative `axis_ADJUST=` value added to the
current homing offset; returns the new state and the move delta of the slot. -/
def sgo_step (st : GCodeMoveState) (pos : Nat) (o adj : Option ℚ) :
    GCodeMoveState × ℚ :=
  let offset? : Option ℚ :=
    match o with
    | some v => some v
    | none =>
      match adj with
      | some a => some (a + st.homing_position.getD pos 0)
      | none => none
  match offset? with
  | none => (st, 0)
  | some offset =>
    let delta := offset - st.homing_position.getD pos 0
    ({ st with
        base_position := st.base_position.set pos (st.base_position.getD pos 0 + delta)
        homing_position := st.homing_position.set pos offset },
      delta)

/-- The `cmd_SET_GCODE_OFFSET` loop over all axis slots. -/
def sgo_loop (st : GCodeMoveState) (pos : Nat) :
    List (Option ℚ × Option ℚ) → GCodeMoveState × List ℚ
  | [] => (st, [])
  | (o, a) :: rest =>
    let r := sgo_step st pos o a
    let r2 := sgo_loop r.1 (pos + 1) rest
    (r2.1, r.2 :: r2.2)

/-- Adding the accumulated `move_delta` into `last_position`
(gcode_move.py lines 373-374). -/
def addDeltas (last : List ℚ) (pos : Nat) : List ℚ → List ℚ
  | [] => last
  | d :: rest => addDeltas (last.set pos (last.getD pos 0 + d)) (pos + 1) rest

/-- `cmd_SET_GCODE_OFFSET` (gcode_move.py lines 355-375).  Returns the new
state and the optional `(position, speed)` move issued when `MOVE=1`. -/
def cmd_SET_GCODE_OFFSET (st : GCodeMoveState) (offs adjs : List (Option ℚ))
    (move : Bool) (move_speed : Option ℚ) :
    GCodeMoveState × Option (List ℚ × ℚ) :=
  let r := sgo_loop st 0 (offs.zip adjs)
  if move then
    let speed := move_speed.getD r.1.speed
    let newlast := addDeltas r.1.last_position 0 r.2
    ({ r.1 with last_position := newlast }, some (newlast, speed))
  else
    (r.1, none)

/-- `cmd_SAVE_GCODE_STATE` (gcode_move.py lines 377-388). -/
def cmd_SAVE_GCODE_STATE (st : GCodeMoveState) (name : String) : GCodeMoveState :=
  { st with saved_states :=
      (name,
        { absolute_coord := st.absolute_coord
          absolute_extrude := st.absolute_extrude
          base_position := st.base_position
          last_position := st.last_position
          homing_position := st.homing_position
          speed := st.speed
          speed_factor := st.speed_factor
          extrude_factor := st.extrude_factor }) :: st.saved_states }

/-- `cmd_RESTORE_GCODE_STATE` (gcode_move.py lines 390-416).  Returns the new
state and the optional move issued for `MOVE=1`; an unknown name is a command
error. -/
def cmd_RESTORE_GCODE_STATE (cfg : GCodeConfig) (st : GCodeMoveState)
    (name : String) (move : Bool) (move_speed : Option ℚ) :
    Except String (GCodeMoveState × Option (List ℚ × ℚ)) :=
  match st.saved_states.lookup name with
  | none => .error "Unknown g-code state"
  | some s =>
    let st1 := { st with
      absolute_coord := s.absolute_coord
      absolute_extrude := s.absolute_extrude
      base_position := s.base_position
      homing_position := s.homing_position
      speed := s.speed
      speed_factor := s.speed_factor
      extrude_factor := s.extrude_factor }
    let e_diff := lastQ st.last_position - lastQ s.last_position
    let st2 := { st1 with
      base_position :=
        st1.base_position.set (st1.base_position.length - 1)
          (lastQ st1.base_position + if cfg.relative_e_restore then e_diff else 0) }
    if move then
      let speed := move_speed.getD st2.speed
      let n := s.last_position.length - 1
      let newlast := s.last_position.take n ++ st2.last_position.drop n
      .ok ({ st2 with last_position := newlast }, some (newlast, speed))
    else
      .ok (st2, none)

/-- The G-code commands of the frontend that manipulate coordinate state,
as dispatched by the handler table (gcode_move.py lines 84-88). -/
inductive Cmd where
  | g1 (p : G1Params)
  | g90
  | g91
  | m82
  | m83
  | g92 (offsets : List (Option ℚ))
  | m220 (S : ℚ)
  | m221 (S : ℚ)
  | gcodeOffset (offs adjs : List (Option ℚ)) (move : Bool) (ms : Option ℚ)
  | save (name : String)
  | restore (name : String) (move : Bool) (ms : Option ℚ)
deriving DecidableEq, Repr

/-- State transition of one frontend command.  Commands that raise leave the
state as mutated up to the raise (for `G1`) or untouched (unknown restore
name). -/
def execCmd (cfg : GCodeConfig) (st : GCodeMoveState) : Cmd → GCodeMoveState
  | .g1 p =>
    match cmd_G1 cfg st p with
    | .ok r => r.1
    | .error r => r.2
  | .g90 => cmd_G90 st
  | .g91 => cmd_G91 st
  | .m82 => cmd_M82 st
  | .m83 => cmd_M83 st
  | .g92 offsets => cmd_G92 st offsets
  | .m220 S => cmd_M220 st S
  | .m221 S => cmd_M221 st S
  | .gcodeOffset offs adjs mv ms => (cmd_SET_GCODE_OFFSET st offs adjs mv ms).1
  | .save name => cmd_SAVE_GCODE_STATE st name
  | .restore name mv ms =>
    match cmd_RESTORE_GCODE_STATE cfg st name mv ms with
    | .ok r => r.1
    | .error _ => st

/-! ## Homing core (homing.py) -/

/-- The data of a `StepperPosition` record (homing.py lines 41-57) after
`note_home_end` has run: the MCU step counter at the start of the move
(`start_pos`), at the halt (`halt_pos`), and at the endstop trigger time
(`trig_pos`).  The counters themselves are read from the MCU and are inputs
of the model. -/
structure SP where
  stepper_name : String
  endstop_name : String
  start_pos : ℤ
  halt_pos : ℤ
  trig_pos : ℤ
deriving DecidableEq, Repr

/-- Lower-casing a string, as Python `str.lower()` for ASCII names. -/
def lowerStr (s : String) : String := ⟨s.data.map Char.toLower⟩

/-- Python `needle in hay` substring membership. -/
def strContains (hay needle : String) : Bool :=
  hay.data.tails.any (fun t => needle.data.isPrefixOf t)

/-- Python `s.startswith(pre)`. -/
def strStarts (s pre : String) : Bool := pre.data.isPrefixOf s.data

/-- The per-stepper match test of `check_no_movement` with a `probe_axes`
list (homing.py lines 436-456), flattening the source's `if`/`elif` pair:
a stepper whose lower-cased name starts with `"extruder"` matches an axis
entry by case-insensitive equality; any other stepper matches an entry that
is a substring of `"xyz"` and is (lower-cased) a substring of the stepper
name. -/
def spMatches (axes : List String) (nm : String) : Bool :=
  if strStarts (lowerStr nm) "extruder" then
    axes.any (fun a => lowerStr a == lowerStr nm)
  else
    axes.any (fun a => strContains "xyz" a && strContains (lowerStr nm) (lowerStr a))

/-- The `check_no_movement` loop for the `probe_axes` branch
(homing.py lines 436-456): return the endstop name of the first stepper that
did not move (`start_pos == trig_pos`) and matches the axes list. -/
def cnm_loop (axes : List String) : List SP → Option String
  | [] => none
  | sp :: rest =>
    if sp.start_pos = sp.trig_pos ∧ spMatches axes sp.stepper_name then
      some sp.endstop_name
    else
      cnm_loop axes rest

/-- `HomingMove.check_no_movement` (homing.py lines 391-457).  `debuginput`
models `printer.get_start_args().get('debuginput') is not None`.  With no
axes list, the first endstop's name is returned when no tracked stepper
moved (the source indexes `stepper_positions[0]`, so it expects a non-empty
list; `head?` keeps the model total). -/
def check_no_movement (debuginput : Bool) (sps : List SP)
    (axes : Option (List String)) : Option String :=
  if debuginput then
    none
  else
    match axes with
    | none =>
      let moved_motors :=
        (sps.filter (fun sp => sp.start_pos ≠ sp.trig_pos)).map (fun sp => sp.stepper_name)
      if moved_motors.isEmpty then
        sps.head?.map (fun sp => sp.endstop_name)
      else
        none
    | some axs => cnm_loop axs sps

/-- A stepper as seen by the homing core: its name and its step distance. -/
structure SimStepper where
  name : String
  step_dist : ℚ
deriving DecidableEq, Repr

/-- A cartesian-style kinematics: one rail ( 1 stepper) per axis, in axis
order; `calc_position` looks each rail up by name
(cartesian_abc.py lines 80-81). -/
structure SimKin where
  rails : List SimStepper
deriving DecidableEq, Repr

/-- Modelled from the spec: the toolhead facade (spec §2, §4.4.2-4.4.3) is an
external collaborator (`toolhead.py` is not part of the analysed sources).
It owns an ordered list of kinematics (XYZ first, then optionally ABC), the
configured extruder steppers, the name of the active extruder's stepper
(`None` for a dummy extruder), its commanded position vector, and the
commanded position of every stepper. -/
structure Toolhead where
  kins : List SimKin
  extruder_steppers : List SimStepper
  active_extruder : Option String
  commanded_pos : List ℚ
  stepper_cmd : List (String × ℚ)
deriving DecidableEq, Repr

/-- All steppers of all non-extruder kinematics, in kinematics order. -/
def allKinSteppers (kins : List SimKin) : List SimStepper :=
  kins.foldr (fun k acc => k.rails ++ acc) []

/-- Rational lookup in an association list, with default. -/
def lookupQ (l : List (String × ℚ)) (k : String) : ℚ :=
  (l.lookup k).getD 0

/-- Integer-offset lookup (`offsets.get(sname, 0)`). -/
def lookupZ (l : List (String × ℤ)) (k : String) : ℤ :=
  (l.lookup k).getD 0

/-- Commanded stepper positions of one kinematics' rails after the toolhead
adopts position `pos`, the rail at list head owning component `i`. -/
def railsCmd (pos : List ℚ) : List SimStepper → Nat → List (String × ℚ)
  | [], _ => []
  | r :: rest, i => (r.name, pos.getD i 0) :: railsCmd pos rest (i + 1)

/-- Commanded stepper positions of all kinematics after the toolhead adopts
position `pos`: kinematics `k` starts at component offset `3k`. -/
def kinsCmd (pos : List ℚ) : List SimKin → Nat → List (String × ℚ)
  | [], _ => []
  | k :: rest, off => railsCmd pos k.rails off ++ kinsCmd pos rest (off + 3)

/-- Modelled from the spec: `toolhead.set_position(pos)` (spec §2, §5) sets
the toolhead's commanded position and writes the corresponding coordinate
through each kinematics to its steppers — the stepper of rail `i` of
kinematics `k` receives component `3k + i`, and every extruder stepper
receives the final (extruder) component. -/
def toolheadSetPos (th : Toolhead) (pos : List ℚ) : Toolhead :=
  { th with
    commanded_pos := pos
    stepper_cmd :=
      kinsCmd pos th.kins 0
        ++ th.extruder_steppers.map (fun s => (s.name, pos.getD (pos.length - 1) 0)) }

/-- `calc_halt_kin_spos` (homing.py lines 371-389): snapshot the commanded
position of every stepper of every kinematics, then of every extruder
stepper. -/
def calc_halt_kin_spos (th : Toolhead) : List (String × ℚ) :=
  (allKinSteppers th.kins).map (fun s => (s.name, lookupQ th.stepper_cmd s.name))
    ++ th.extruder_steppers.map (fun s => (s.name, lookupQ th.stepper_cmd s.name))

/-- `CartKinematicsABC.calc_position` (cartesian_abc.py lines 80-81) on the
homing core's stepper-position map. -/
def kinCalcPosition (k : SimKin) (spos : List (String × ℚ)) : List ℚ :=
  k.rails.map (fun r => lookupQ spos r.name)

/-- Find a stepper by name among all kinematics' and extruder steppers. -/
def findStepper (th : Toolhead) (n : String) : Option SimStepper :=
  (allKinSteppers th.kins ++ th.extruder_steppers).find? (fun s => s.name == n)

/-- Step 1 of `calc_toolhead_pos` (homing.py lines 123-138): for every
stepper of every kinematics and extruder, convert its step offset to
distance units and add it to its entry of `kin_spos`.  The source iterates
the steppers and updates the dict in place; with unique stepper names this
is the same as adjusting each entry by the offset of its (unique) stepper. -/
def adjustSpos (th : Toolhead) (kin_spos : List (String × ℚ))
    (offsets : List (String × ℤ)) : List (String × ℚ) :=
  kin_spos.map (fun p =>
    match findStepper th p.1 with
    | some s => (p.1, p.2 + (lookupZ offsets p.1 : ℚ) * s.step_dist)
    | none => p)

/-- `HomingMove.calc_toolhead_pos` (homing.py lines 110-178): adjust the
stepper positions by the step offsets, then concatenate the first three
components of each kinematics' `calc_position` and append the active
extruder's adjusted position (or the toolhead's current extruder coordinate
when there is no named extruder). -/
def calc_toolhead_pos (th : Toolhead) (kin_spos : List (String × ℚ))
    (offsets : List (String × ℤ)) : List ℚ :=
  let spos := adjustSpos th kin_spos offsets
  let thpos := th.commanded_pos
  let result := th.kins.foldr (fun k acc => (kinCalcPosition k spos).take 3 ++ acc) []
  result ++
    [match th.active_extruder with
     | some nm => lookupQ spos nm
     | none => thpos.getD (thpos.length - 1) 0]

/-- The per-stepper overshoot of a homing move
(homing.py lines 319-320): `halt_pos - trig_pos`. -/
def over_steps (sps : List SP) : List (String × ℤ) :=
  sps.map (fun sp => (sp.stepper_name, sp.halt_pos - sp.trig_pos))

/-- Outcome of the tail of `HomingMove.homing_move`: the final toolhead, the
`set_position` calls it made (in order), the computed halt and trigger
positions, the events it sent, and either the returned trigger position or
the raised error. -/
structure HomingFinish where
  toolhead : Toolhead
  set_position_calls : List (List ℚ)
  haltpos : List ℚ
  trigpos : List ℚ
  events : List String
  result : Except String (List ℚ)
deriving Repr

/-- The `probe_pos=False` tail of `HomingMove.homing_move`
(homing.py lines 315-369): `haltpos = trigpos = movepos`; when any stepper
overshot its trigger position, the toolhead is provisionally set to
`movepos`, the commanded stepper positions are snapshotted and `haltpos` is
recomputed from that snapshot and the overshoot; the toolhead is finally set
to `haltpos`, `homing:homing_move_end` is sent, a recorded error (or one
raised by an end-event handler, modelled by `end_event_error`) is raised,
and otherwise `trigpos` is returned. -/
def homing_move_finish (th : Toolhead) (movepos : List ℚ) (sps : List SP)
    (error : Option String) (end_event_error : Option String) : HomingFinish :=
  let trigpos := movepos
  let ovs := over_steps sps
  let err : Option String :=
    match error with
    | some e => some e
    | none => end_event_error
  if ovs.any (fun p => p.2 ≠ 0) then
    let th1 := toolheadSetPos th movepos
    let halt_kin_spos := calc_halt_kin_spos th1
    let haltpos := calc_toolhead_pos th1 halt_kin_spos ovs
    let th2 := toolheadSetPos th1 haltpos
    { toolhead := th2
      set_position_calls := [movepos, haltpos]
      haltpos := haltpos
      trigpos := trigpos
      events := ["homing:homing_move_end"]
      result := match err with | some e => .error e | none => .ok trigpos }
  else
    let haltpos := movepos
    let th1 := toolheadSetPos th haltpos
    { toolhead := th1
      set_position_calls := [haltpos]
      haltpos := haltpos
      trigpos := trigpos
      events := ["homing:homing_move_end"]
      result := match err with | some e => .error e | none => .ok trigpos }

/-- Outcome of the retract phase of `Homing.home_rails`: the computed retract
position, the `toolhead.move` calls, the `toolhead.set_position` target, the
`(target, speed)` of the second homing move, and the error raised when an
endstop is still triggered after the retract. -/
structure RetractResult where
  retractpos : List ℚ
  moves : List (List ℚ × ℚ)
  set_pos : List ℚ
  second_home : List ℚ × ℚ
  error : Option String
deriving Repr

/-- Sum of squares, for relating `move_d` to the axis deltas. -/
def sumsq (l : List ℚ) : ℚ := (l.map (fun d => d * d)).sum

/-- The retract / second-home phase of `Homing.home_rails`
(homing.py lines 534-571), entered when `retract_dist` is nonzero.
`axes_d = homepos - startpos`; in the source
`move_d = math.sqrt(sum(d*d for d in axes_d[:-1]))`, which leaves `ℚ`, so
`move_d` is passed as an argument and constrained by
`move_d * move_d = sumsq axes_d.dropLast ∧ 0 ≤ move_d` in the theorems.
`retract_r = min(1, retract_dist / move_d)`; the toolhead moves to
`retractpos = homepos - axes_d * retract_r` at `retract_speed`, its position
is then set to `startpos2 = retractpos - axes_d * retract_r`, the homing move
to `homepos` is repeated at `second_homing_speed`, and a non-`None`
`check_no_movement()` on the second move raises
`"Endstop ... still triggered after retract"`. -/
def home_rails_retract (startpos homepos : List ℚ) (move_d : ℚ)
    (retract_dist retract_speed second_homing_speed : ℚ)
    (sps2 : List SP) (debuginput : Bool) : RetractResult :=
  let axes_d := List.zipWith (fun hp sp => hp - sp) homepos startpos
  let retract_r := min 1 (retract_dist / move_d)
  let retractpos := List.zipWith (fun hp ad => hp - ad * retract_r) homepos axes_d
  let startpos2 := List.zipWith (fun rp ad => rp - ad * retract_r) retractpos axes_d
  let err : Option String :=
    match check_no_movement debuginput sps2 none with
    | some es => some ("Endstop " ++ es ++ " still triggered after retract")
    | none => none
  { retractpos := retractpos
    moves := [(retractpos, retract_speed)]
    set_pos := startpos2
    second_home := (homepos, second_homing_speed)
    error := err }

/-! ## Cartesian kinematics (cartesian_abc.py) -/

/-- Modelled from the spec: a `PrinterRail` (spec §3) as consumed by the
kinematics — it exposes its declared travel range (`get_range`) and a
`set_position(newpos)` that adopts the coordinate of its axis.  `axisIdx` is
the index of the rail's axis letter in the position vector (installed by
`setup_itersolve('cartesian_stepper_alloc', axis)`). -/
structure Rail where
  name : String
  axisIdx : Nat
  range_lo : ℚ
  range_hi : ℚ
  commanded : ℚ
deriving DecidableEq, Repr

/-- A default rail for total index accesses. -/
def dRail : Rail := { name := "", axisIdx := 0, range_lo := 1, range_hi := -1, commanded := 0 }

/-- `rail.set_position(newpos)`: the rail adopts its axis component. -/
def railSetPos (r : Rail) (newpos : List ℚ) : Rail :=
  { r with commanded := newpos.getD r.axisIdx 0 }

/-- The state of `CartKinematicsABC` (cartesian_abc.py): its axis letters,
rails (one per letter) and per-axis limits, initialised to the unhomed
sentinel `(1.0, -1.0)` (line 49). -/
structure KinABC where
  axis_names : List Char
  rails : List Rail
  limits : List (ℚ × ℚ)
deriving DecidableEq, Repr

/-- The `CartKinematicsABC.set_position` loop (cartesian_abc.py lines 83-88):
each rail adopts the new position; the limit slot of each rail index that is
being homed adopts the rail's declared range.  `i` is the index of the head
rail. -/
def ksp_loop (newpos : List ℚ) (homing_axes : List Nat) :
    List Rail → List (ℚ × ℚ) → Nat → List Rail × List (ℚ × ℚ)
  | [], limits, _ => ([], limits)
  | r :: rest, limits, i =>
    let r' := railSetPos r newpos
    let limits' := if i ∈ homing_axes then limits.set i (r.range_lo, r.range_hi) else limits
    let res := ksp_loop newpos homing_axes rest limits' (i + 1)
    (r' :: res.1, res.2)

/-- `CartKinematicsABC.set_position` (cartesian_abc.py lines 83-88). -/
def kinSetPosition (k : KinABC) (newpos : List ℚ) (homing_axes : List Nat) : KinABC :=
  let res := ksp_loop newpos homing_axes k.rails k.limits 0
  { k with rails := res.1, limits := res.2 }

/-- The `homed_axes` component of `CartKinematicsABC.get_status`
(cartesian_abc.py line 165): the axis letters whose limits satisfy
`low <= high`. -/
def kinHomedAxes (k : KinABC) : List Char :=
  ((k.axis_names.zip k.limits).filter (fun p => p.2.1 ≤ p.2.2)).map (fun p => p.1)

/-! ## Extruder kinematics (extruder.py) -/

/-- The slice of a toolhead `Move` object consumed by the extruder checks:
per-axis displacements `axes_d`, their ratios to the move distance `axes_r`,
the end position, and the current velocity/acceleration caps.  The extruder
coordinate is the last component of each vector. -/
structure EMove where
  axes_d : List ℚ
  axes_r : List ℚ
  end_pos : List ℚ
  max_v : ℚ
  max_a : ℚ
deriving DecidableEq, Repr

/-- Modelled from the spec: `move.limit_speed(v, a)` applies `v`/`a` as caps
on the move's velocity and acceleration (spec §4.2 "apply as a cap via
move.limit_speed"). -/
def limitSpeed (m : EMove) (v a : ℚ) : EMove :=
  { m with max_v := min m.max_v v, max_a := min m.max_a a }

/-- The configuration of a `PrinterExtruder` relevant to `check_move`
(extruder.py lines 290-328): whether the heater can extrude, the
extrude-only limits, the extrusion cross-section limit, and the
`symmetric_speed_limits` flag. -/
structure ExtruderConfig where
  can_extrude : Bool
  max_e_dist : ℚ
  max_e_velocity : ℚ
  max_e_accel : ℚ
  max_extrude_frac : ℚ
  nozzle_diameter : ℚ
  filament_area : ℚ
  symmetric : Bool
deriving DecidableEq, Repr

/-- The state of the `ExtruderStepper` limit checks (extruder.py lines 21-66,
151-189): whether the stepper is home-able, its limits, and the toolhead's
`are_limits_enabled()` flag. -/
structure EStepper where
  can_home : Bool
  limit_lo : ℚ
  limit_hi : ℚ
  limits_enabled : Bool
deriving DecidableEq, Repr

/-- `ExtruderStepper._check_endstops` (extruder.py lines 167-189): an
out-of-bounds extruder move raises "must home" when the limits are still the
unhomed sentinel, and a move error when limit checks are enabled. -/
def eCheckEndstops (es : EStepper) (m : EMove) : Option String :=
  let end_pos := lastQ m.end_pos
  if lastQ m.axes_d ≠ 0 ∧ (end_pos < es.limit_lo ∨ end_pos > es.limit_hi) then
    if es.limit_lo > es.limit_hi then
      some "Must home extruder axis first"
    else if es.limits_enabled then
      some "Move out of range"
    else
      none
  else
    none

/-- `ExtruderStepper.check_move_limits` (extruder.py lines 151-165). -/
def eCheckMoveLimits (es : EStepper) (m : EMove) : Option String :=
  let epos := lastQ m.end_pos
  if es.can_home && es.limits_enabled then
    if epos < es.limit_lo ∨ epos > es.limit_hi then
      eCheckEndstops es m
    else
      none
  else
    none

/-- `PrinterExtruder.check_move` (extruder.py lines 384-422).  Returns the
move (with any velocity/acceleration caps applied) together with the raised
error, if any; an error raised before a mutation leaves the move unchanged,
mirroring the in-place mutation order of the source. -/
def extruderCheckMove (cfg : ExtruderConfig) (es : EStepper) (m : EMove) :
    EMove × Option String :=
  let axis_r := lastQ m.axes_r
  if !cfg.can_extrude then
    (m, some "Extrude below minimum temp")
  else if (m.axes_d.getD 0 0 = 0 ∧ m.axes_d.getD 1 0 = 0) ∨ axis_r < 0 ∨ cfg.symmetric then
    if |lastQ m.axes_d| > cfg.max_e_dist then
      (m, some "Extrude only move too long")
    else
      let inv_extrude_r := 1 / |axis_r|
      let m' := limitSpeed m (cfg.max_e_velocity * inv_extrude_r) (cfg.max_e_accel * inv_extrude_r)
      (m', eCheckMoveLimits es m')
  else if axis_r > cfg.max_extrude_frac then
    if lastQ m.axes_d ≤ cfg.nozzle_diameter * cfg.max_extrude_frac then
      (m, none)
    else
      (m, some "Move exceeds maximum extrusion")
  else
    (m, eCheckMoveLimits es m)

/-! ## Helper lemmas -/

/-- `getD` of a `set` at the written index. -/
theorem getD_set_self {α : Type} (l : List α) (i : Nat) (v d : α) (h : i < l.length) :
    (l.set i v).getD i d = v := by
  induction l generalizing i with
  | nil => simp at h
  | cons a t ih =>
    cases i with
    | zero => simp
    | succ n =>
      simp only [List.set_cons_succ, List.getD_cons_succ]
      exact ih n (by simpa using h)

/-- `getD` of a `set` at a different index. -/
theorem getD_set_ne {α : Type} (l : List α) (i j : Nat) (v d : α) (h : i ≠ j) :
    (l.set i v).getD j d = l.getD j d := by
  induction l generalizing i j with
  | nil => simp
  | cons a t ih =>
    cases i with
    | zero =>
      cases j with
      | zero => exact absurd rfl h
      | succ m => simp
    | succ n =>
      cases j with
      | zero => simp
      | succ m =>
        simp only [List.set_cons_succ, List.getD_cons_succ]
        exact ih n m (fun hnm => h (by rw [hnm]))

/-- `getD` of a `zipWith` at an in-range index. -/
theorem getD_zipWith (f : ℚ → ℚ → ℚ) (l1 l2 : List ℚ) (i : Nat)
    (h1 : i < l1.length) (h2 : i < l2.length) :
    (List.zipWith f l1 l2).getD i 0 = f (l1.getD i 0) (l2.getD i 0) := by
  induction l1 generalizing l2 i with
  | nil => simp at h1
  | cons a t ih =>
    cases l2 with
    | nil => simp at h2
    | cons b u =>
      cases i with
      | zero => simp
      | succ n =>
        simp only [List.zipWith_cons_cons, List.getD_cons_succ]
        exact ih u n (by simpa using h1) (by simpa using h2)

/-! ## C2: M220 speed-factor rescaling -/

/-- Claim C2: every `M220 S` with `S > 0` sets `speed_factor` to `(S/100)/60`
and rescales `speed` as `(speed / old_speed_factor) * new_speed_factor`, so
the F-space speed reported by `_get_gcode_speed` is invariant across any
sequence of such commands. -/
theorem cmd_M220_spec (st : GCodeMoveState) (S : ℚ) (l : List ℚ)
    (hS : 0 < S) (hl : ∀ s ∈ l, 0 < s) (hf : st.speed_factor ≠ 0) :
    (cmd_M220 st S).speed_factor = S / 100 / 60
    ∧ (cmd_M220 st S).speed = st.speed / st.speed_factor * (S / 100 / 60)
    ∧ (l.foldl cmd_M220 st).gcode_speed = st.gcode_speed := by
  refine ⟨rfl, rfl, ?_⟩
  induction l generalizing st with
  | nil => rfl
  | cons s rest ih =>
    have hs : 0 < s := hl s (List.mem_cons_self s rest)
    have hstep : (cmd_M220 st s).gcode_speed = st.gcode_speed := by
      have hv : s / 100 / 60 ≠ 0 := by positivity
      simp only [cmd_M220, GCodeMoveState.gcode_speed]
      exact mul_div_cancel_right₀ _ hv
    have hfac : (cmd_M220 st s).speed_factor ≠ 0 := by
      simp only [cmd_M220]
      positivity
    calc (List.foldl cmd_M220 st (s :: rest)).gcode_speed
        = (List.foldl cmd_M220 (cmd_M220 st s) rest).gcode_speed := rfl
      _ = (cmd_M220 st s).gcode_speed :=
          ih (cmd_M220 st s) (fun x hx => hl x (List.mem_cons_of_mem s hx)) hfac
      _ = st.gcode_speed := hstep

/-- Witness for C2 at a concrete state and the command sequence
`M220 S100; M220 S50`. -/
theorem cmd_M220_spec_witness :
    (cmd_M220
        { absolute_coord := true, absolute_extrude := true,
          base_position := [0,0,0,0], last_position := [0,0,0,0],
          homing_position := [0,0,0,0], speed := 25, speed_factor := 1/60,
          extrude_factor := 1, saved_states := [] } 200).speed_factor = 200 / 100 / 60
    ∧ (cmd_M220
        { absolute_coord := true, absolute_extrude := true,
          base_position := [0,0,0,0], last_position := [0,0,0,0],
          homing_position := [0,0,0,0], speed := 25, speed_factor := 1/60,
          extrude_factor := 1, saved_states := [] } 200).speed = 25 / (1/60) * (200 / 100 / 60)
    ∧ (List.foldl cmd_M220
        { absolute_coord := true, absolute_extrude := true,
          base_position := [0,0,0,0], last_position := [0,0,0,0],
          homing_position := [0,0,0,0], speed := 25, speed_factor := 1/60,
          extrude_factor := 1, saved_states := [] } [100, 50]).gcode_speed =
      GCodeMoveState.gcode_speed
        { absolute_coord := true, absolute_extrude := true,
          base_position := [0,0,0,0], last_position := [0,0,0,0],
          homing_position := [0,0,0,0], speed := 25, speed_factor := 1/60,
          extrude_factor := 1, saved_states := [] } := by
  have h := cmd_M220_spec
    { absolute_coord := true, absolute_extrude := true,
      base_position := [0,0,0,0], last_position := [0,0,0,0],
      homing_position := [0,0,0,0], speed := 25, speed_factor := 1/60,
      extrude_factor := 1, saved_states := [] } 200 [100, 50]
    (by norm_num) (by decide) (by norm_num)
  exact ⟨h.1, h.2.1, by
    have := h.2.2
    simpa using this⟩

/-! ## C3: G92 base-position updates -/

/-- The `cmd_G92` loop only rewrites `base_position`; every other field is
untouched and the length of `base_position` is preserved. -/
theorem g92_loop_frame (offsets : List (Option ℚ)) :
    ∀ (st : GCodeMoveState) (i n : Nat),
      (g92_loop st i n offsets).absolute_coord = st.absolute_coord
      ∧ (g92_loop st i n offsets).absolute_extrude = st.absolute_extrude
      ∧ (g92_loop st i n offsets).last_position = st.last_position
      ∧ (g92_loop st i n offsets).homing_position = st.homing_position
      ∧ (g92_loop st i n offsets).speed = st.speed
      ∧ (g92_loop st i n offsets).speed_factor = st.speed_factor
      ∧ (g92_loop st i n offsets).extrude_factor = st.extrude_factor
      ∧ (g92_loop st i n offsets).saved_states = st.saved_states
      ∧ (g92_loop st i n offsets).base_position.length = st.base_position.length := by
  induction offsets with
  | nil => intro st i n; simp [g92_loop]
  | cons o rest ih =>
    intro st i n
    cases o with
    | none => simpa [g92_loop] using ih st (i + 1) n
    | some v =>
      have h := ih
        { st with base_position :=
            st.base_position.set i (st.last_position.getD i 0
              - (if i = n - 1 then v * st.extrude_factor else v)) }
        (i + 1) n
      simpa [g92_loop] using h

/-- Indices below the loop cursor are not modified by the `cmd_G92` loop. -/
theorem g92_loop_getD_lt (offsets : List (Option ℚ)) :
    ∀ (st : GCodeMoveState) (i n j : Nat), j < i →
      (g92_loop st i n offsets).base_position.getD j 0 = st.base_position.getD j 0 := by
  induction offsets with
  | nil => intro st i n j _; rfl
  | cons o rest ih =>
    intro st i n j hj
    cases o with
    | none => exact ih st (i + 1) n j (Nat.lt_succ_of_lt hj)
    | some v =>
      show (g92_loop
        { st with base_position :=
            st.base_position.set i (st.last_position.getD i 0
              - (if i = n - 1 then v * st.extrude_factor else v)) }
        (i + 1) n rest).base_position.getD j 0 = st.base_position.getD j 0
      rw [ih _ (i + 1) n j (Nat.lt_succ_of_lt hj)]
      exact getD_set_ne _ i j _ _ (Nat.ne_of_gt hj)

/-- The `cmd_G92` loop writes `last - offset` into each provided slot, the
extruder slot (`n - 1`) being scaled by `extrude_factor`. -/
theorem g92_loop_getD_at (offsets : List (Option ℚ)) :
    ∀ (st : GCodeMoveState) (i n k : Nat) (v : ℚ),
      offsets.get? k = some (some v) → i + k < st.base_position.length →
      (g92_loop st i n offsets).base_position.getD (i + k) 0 =
        st.last_position.getD (i + k) 0
          - (if i + k = n - 1 then v * st.extrude_factor else v) := by
  induction offsets with
  | nil => intro st i n k v hk _; simp at hk
  | cons o rest ih =>
    intro st i n k v hk hlen
    cases o with
    | none =>
      cases k with
      | zero => simp at hk
      | succ m =>
        simp only [List.get?_cons_succ] at hk
        have h := ih st (i + 1) n m v hk (by omega)
        have harith : i + 1 + m = i + (m + 1) := by omega
        rw [harith] at h
        simpa only [g92_loop] using h
    | some w =>
      cases k with
      | zero =>
        have hw : w = v := by simpa using hk
        subst hw
        simp only [g92_loop, Nat.add_zero]
        rw [g92_loop_getD_lt rest _ (i + 1) n i (Nat.lt_succ_self i)]
        exact getD_set_self _ i _ 0 (by simpa using hlen)
      | succ m =>
        simp only [List.get?_cons_succ] at hk
        have h := ih
          { st with base_position :=
              st.base_position.set i (st.last_position.getD i 0
                - (if i = n - 1 then w * st.extrude_factor else w)) }
          (i + 1) n m v hk (by simp only [List.length_set]; omega)
        have harith : i + 1 + m = i + (m + 1) := by omega
        rw [harith] at h
        simpa only [g92_loop] using h

/-- Claim C3: `G92` with a value for some axis sets that slot of
`base_position` to `last_position - value` (the value scaled by
`extrude_factor` for the `E` slot, the last one); `G92` with no parameters
copies `last_position` into `base_position`; and after `G92 X0 Y0 Z0` the
position reported by `M114` is zero on X, Y and Z regardless of the prior
`base_position`. -/
theorem cmd_G92_spec (st : GCodeMoveState) (offsets : List (Option ℚ)) :
    (∀ k v, offsets.get? k = some (some v) → k < st.base_position.length →
      (cmd_G92 st offsets).base_position.getD k 0 =
        st.last_position.getD k 0
          - (if k = offsets.length - 1 then v * st.extrude_factor else v))
    ∧ ((∀ o ∈ offsets, o = none) →
      (cmd_G92 st offsets).base_position = st.last_position)
    ∧ (∀ st' : GCodeMoveState, st'.base_position.length = 4 →
        st'.last_position.length = 4 → ∀ i, i < 3 →
        (cmd_G92 st' [some 0, some 0, some 0, none]).gcode_position.getD i 0 = 0) := by
  refine ⟨?_, ?_, ?_⟩
  · intro k v hk hklen
    have hnotall : ¬ offsets.all (fun o => o.isNone) = true := by
      intro hall
      have := List.all_eq_true.mp hall (some v) (List.get?_mem hk)
      simp at this
    have h := g92_loop_getD_at offsets st 0 offsets.length k v hk (by simpa using hklen)
    simpa [cmd_G92, hnotall] using h
  · intro hall
    have hballs : offsets.all (fun o => o.isNone) = true := by
      refine List.all_eq_true.mpr ?_
      intro o ho
      rw [hall o ho]
      rfl
    have hframe := (g92_loop_frame offsets st 0 offsets.length).2.2.1
    simp only [cmd_G92, hballs, if_true]
    exact hframe
  · intro st' hb4 hl4 i hi
    have hnotall : ([some (0:ℚ), some 0, some 0, none].all (fun o => o.isNone)) = false := by
      decide
    have hCdef : cmd_G92 st' [some 0, some 0, some 0, none]
        = g92_loop st' 0 4 [some 0, some 0, some 0, none] := by
      simp [cmd_G92, hnotall]
    have hlast :
        (g92_loop st' 0 4 [some (0:ℚ), some 0, some 0, none]).last_position
          = st'.last_position :=
      (g92_loop_frame _ st' 0 4).2.2.1
    have hblen :
        (g92_loop st' 0 4 [some (0:ℚ), some 0, some 0, none]).base_position.length = 4 := by
      rw [(g92_loop_frame _ st' 0 4).2.2.2.2.2.2.2.2, hb4]
    have hbase :
        (g92_loop st' 0 4 [some (0:ℚ), some 0, some 0, none]).base_position.getD i 0
          = st'.last_position.getD i 0 := by
      have hget : [some (0:ℚ), some 0, some 0, none].get? i = some (some 0) := by
        match i, hi with
        | 0, _ => rfl
        | 1, _ => rfl
        | 2, _ => rfl
      have h := g92_loop_getD_at [some (0:ℚ), some 0, some 0, none] st' 0 4 i 0 hget
        (by omega)
      simp only [Nat.zero_add] at h
      rw [h, if_neg (by omega : ¬ (i = 4 - 1))]
      ring
    rw [hCdef]
    simp only [GCodeMoveState.gcode_position]
    have hplen : (List.zipWith (fun lp bp => lp - bp)
        (g92_loop st' 0 4 [some (0:ℚ), some 0, some 0, none]).last_position
        (g92_loop st' 0 4 [some (0:ℚ), some 0, some 0, none]).base_position).length = 4 := by
      rw [List.length_zipWith, hlast, hl4, hblen]
      simp
    rw [hplen]
    rw [getD_set_ne _ (4 - 1) i _ _ (by omega)]
    rw [getD_zipWith _ _ _ i (by rw [hlast, hl4]; omega) (by rw [hblen]; omega)]
    show (g92_loop st' 0 4 [some (0:ℚ), some 0, some 0, none]).last_position.getD i 0
        - (g92_loop st' 0 4 [some (0:ℚ), some 0, some 0, none]).base_position.getD i 0 = 0
    rw [hlast, hbase, sub_self]

/-- Witness for C3 at a concrete state: `G92 X0 Y0 Z0` with a nonzero prior
`base_position`. -/
theorem cmd_G92_spec_witness :
    (cmd_G92
      { absolute_coord := true, absolute_extrude := true,
        base_position := [7,8,9,1], last_position := [10,5,0,2],
        homing_position := [0,0,0,0], speed := 25, speed_factor := 1/60,
        extrude_factor := 1, saved_states := [] }
      [some 0, some 0, some 0, none]).gcode_position.getD 0 0 = 0 := by
  have h := cmd_G92_spec
    { absolute_coord := true, absolute_extrude := true,
      base_position := [7,8,9,1], last_position := [10,5,0,2],
      homing_position := [0,0,0,0], speed := 25, speed_factor := 1/60,
      extrude_factor := 1, saved_states := [] }
    [some 0, some 0, some 0, none]
  exact h.2.2
    { absolute_coord := true, absolute_extrude := true,
      base_position := [7,8,9,1], last_position := [10,5,0,2],
      homing_position := [0,0,0,0], speed := 25, speed_factor := 1/60,
      extrude_factor := 1, saved_states := [] }
    (by decide) (by decide) 0 (by decide)

/-! ## C1 and C10: G1 moves -/

/-- `applyAxis` only rewrites slot `pos` of `last_position`: all other
fields and all other indices are untouched, and the written value is
`v + base` in absolute mode and `last + v` in relative mode. -/
theorem applyAxis_spec (st : GCodeMoveState) (pos : Nat) (v : ℚ) :
    (applyAxis st pos v).absolute_coord = st.absolute_coord
    ∧ (applyAxis st pos v).absolute_extrude = st.absolute_extrude
    ∧ (applyAxis st pos v).base_position = st.base_position
    ∧ (applyAxis st pos v).homing_position = st.homing_position
    ∧ (applyAxis st pos v).speed = st.speed
    ∧ (applyAxis st pos v).speed_factor = st.speed_factor
    ∧ (applyAxis st pos v).extrude_factor = st.extrude_factor
    ∧ (applyAxis st pos v).saved_states = st.saved_states
    ∧ (applyAxis st pos v).last_position.length = st.last_position.length
    ∧ (∀ j, j ≠ pos → (applyAxis st pos v).last_position.getD j 0 = st.last_position.getD j 0)
    ∧ (pos < st.last_position.length →
        (applyAxis st pos v).last_position.getD pos 0 =
          if st.absolute_coord then v + st.base_position.getD pos 0
          else st.last_position.getD pos 0 + v) := by
  by_cases habs : st.absolute_coord = true
  · have hred : applyAxis st pos v =
        { st with last_position :=
            st.last_position.set pos (v + st.base_position.getD pos 0) } := by
      simp [applyAxis, habs]
    rw [hred]
    refine ⟨rfl, rfl, rfl, rfl, rfl, rfl, rfl, rfl, by simp, ?_, ?_⟩
    · intro j hj
      exact getD_set_ne _ pos j _ _ (fun h => hj h.symm)
    · intro hlt
      rw [getD_set_self _ pos _ 0 hlt, if_pos habs]
  · have hred : applyAxis st pos v =
        { st with last_position :=
            st.last_position.set pos (st.last_position.getD pos 0 + v) } := by
      simp [applyAxis, habs]
    rw [hred]
    refine ⟨rfl, rfl, rfl, rfl, rfl, rfl, rfl, rfl, by simp, ?_, ?_⟩
    · intro j hj
      exact getD_set_ne _ pos j _ _ (fun h => hj h.symm)
    · intro hlt
      rw [getD_set_self _ pos _ 0 hlt, if_neg habs]

/-- When every provided axis slot is configured, the `cmd_G1` axis loop
succeeds, touches only `last_position`, and writes each provided slot
according to the absolute/relative mode. -/
theorem g1_loop_spec (cfg : GCodeConfig) (axes : List (Option ℚ)) :
    ∀ (st : GCodeMoveState) (pos : Nat),
      (∀ i v, axes.get? i = some (some v) → cfg.configured.getD (pos + i) false = true) →
      ∃ r, g1_axes_loop cfg st pos axes = .ok r
        ∧ r.absolute_coord = st.absolute_coord
        ∧ r.absolute_extrude = st.absolute_extrude
        ∧ r.base_position = st.base_position
        ∧ r.homing_position = st.homing_position
        ∧ r.speed = st.speed
        ∧ r.speed_factor = st.speed_factor
        ∧ r.extrude_factor = st.extrude_factor
        ∧ r.saved_states = st.saved_states
        ∧ r.last_position.length = st.last_position.length
        ∧ (∀ j, j < pos → r.last_position.getD j 0 = st.last_position.getD j 0)
        ∧ (∀ j, pos + axes.length ≤ j → r.last_position.getD j 0 = st.last_position.getD j 0)
        ∧ (∀ i v, axes.get? i = some (some v) → pos + i < st.last_position.length →
            r.last_position.getD (pos + i) 0 =
              if st.absolute_coord then v + st.base_position.getD (pos + i) 0
              else st.last_position.getD (pos + i) 0 + v) := by
  induction axes with
  | nil =>
    intro st pos _
    exact ⟨st, rfl, rfl, rfl, rfl, rfl, rfl, rfl, rfl, rfl, rfl,
      fun j _ => rfl, fun j _ => rfl, fun i v hk _ => by simp at hk⟩
  | cons o rest ih =>
    intro st pos hconf
    cases o with
    | none =>
      obtain ⟨r, hr, h1, h2, h3, h4, h5, h6, h7, h8, h9, hlt, hge, hat⟩ :=
        ih st (pos + 1) (fun i v hk => by
          have h2 := hconf (i + 1) v (by simpa using hk)
          have e : pos + 1 + i = pos + (i + 1) := by omega
          rw [e]
          exact h2)
      refine ⟨r, by simpa only [g1_axes_loop] using hr, h1, h2, h3, h4, h5, h6, h7, h8, h9,
        ?_, ?_, ?_⟩
      · intro j hj
        exact hlt j (Nat.lt_succ_of_lt hj)
      · intro j hj
        simp only [List.length_cons] at hj
        exact hge j (by omega)
      · intro i v hk hlen
        cases i with
        | zero => simp at hk
        | succ m =>
          simp only [List.get?_cons_succ] at hk
          have h := hat m v hk (by omega)
          have harith : pos + 1 + m = pos + (m + 1) := by omega
          rw [harith] at h
          exact h
    | some w =>
      have hc : cfg.configured.getD pos false = true := by
        have := hconf 0 w rfl
        simpa using this
      obtain ⟨fa1, fa2, fa3, fa4, fa5, fa6, fa7, fa8, fa9, faNe, faAt⟩ :=
        applyAxis_spec st pos w
      obtain ⟨r, hr, h1, h2, h3, h4, h5, h6, h7, h8, h9, hlt, hge, hat⟩ :=
        ih (applyAxis st pos w) (pos + 1) (fun i v hk => by
          have h2 := hconf (i + 1) v (by simpa using hk)
          have e : pos + 1 + i = pos + (i + 1) := by omega
          rw [e]
          exact h2)
      have hloop : g1_axes_loop cfg st pos (some w :: rest) =
          g1_axes_loop cfg (applyAxis st pos w) (pos + 1) rest := by
        simp only [g1_axes_loop, hc, if_true]
      refine ⟨r, by rw [hloop]; exact hr,
        h1.trans fa1, h2.trans fa2, h3.trans fa3, h4.trans fa4, h5.trans fa5,
        h6.trans fa6, h7.trans fa7, h8.trans fa8, h9.trans fa9, ?_, ?_, ?_⟩
      · intro j hj
        rw [hlt j (Nat.lt_succ_of_lt hj)]
        exact faNe j (Nat.ne_of_lt hj)
      · intro j hj
        simp only [List.length_cons] at hj
        rw [hge j (by omega)]
        exact faNe j (by omega)
      · intro i v hk hlen
        cases i with
        | zero =>
          have hw : w = v := by simpa using hk
          subst hw
          simp only [Nat.add_zero] at hlen ⊢
          rw [hlt pos (Nat.lt_succ_self pos)]
          exact faAt hlen
        | succ m =>
          simp only [List.get?_cons_succ] at hk
          have h := hat m v (by exact hk) (by rw [fa9]; omega)
          have harith : pos + 1 + m = pos + (m + 1) := by omega
          rw [harith] at h
          rw [h, fa1, fa3]
          have hne : pos + (m + 1) ≠ pos := by omega
          rw [faNe (pos + (m + 1)) hne]

/-- `g1_apply_e` only rewrites the final (`E`) slot of `last_position`; a
provided `E` word is scaled by `extrude_factor` and uses absolute semantics
exactly when both `absolute_coord` and `absolute_extrude` hold. -/
theorem g1_apply_e_spec (st : GCodeMoveState) (eo : Option ℚ) :
    (g1_apply_e st eo).absolute_coord = st.absolute_coord
    ∧ (g1_apply_e st eo).absolute_extrude = st.absolute_extrude
    ∧ (g1_apply_e st eo).base_position = st.base_position
    ∧ (g1_apply_e st eo).homing_position = st.homing_position
    ∧ (g1_apply_e st eo).speed = st.speed
    ∧ (g1_apply_e st eo).speed_factor = st.speed_factor
    ∧ (g1_apply_e st eo).extrude_factor = st.extrude_factor
    ∧ (g1_apply_e st eo).saved_states = st.saved_states
    ∧ (g1_apply_e st eo).last_position.length = st.last_position.length
    ∧ (∀ j, j ≠ st.last_position.length - 1 →
        (g1_apply_e st eo).last_position.getD j 0 = st.last_position.getD j 0)
    ∧ (∀ ev, eo = some ev → st.last_position.length - 1 < st.last_position.length →
        (g1_apply_e st eo).last_position.getD (st.last_position.length - 1) 0 =
          if st.absolute_coord ∧ st.absolute_extrude then
            ev * st.extrude_factor + st.base_position.getD (st.base_position.length - 1) 0
          else
            st.last_position.getD (st.last_position.length - 1) 0 + ev * st.extrude_factor) := by
  cases eo with
  | none =>
    exact ⟨rfl, rfl, rfl, rfl, rfl, rfl, rfl, rfl, rfl,
      fun j _ => rfl, fun ev hev _ => by cases hev⟩
  | some ev =>
    by_cases hcase : st.absolute_coord = true ∧ st.absolute_extrude = true
    · have hred : g1_apply_e st (some ev) =
          { st with last_position := st.last_position.set (st.last_position.length - 1) (ev * st.extrude_factor + st.base_position.getD (st.base_position.length - 1) 0) } := by
        simp [g1_apply_e, hcase.1, hcase.2]
      rw [hred]
      refine ⟨rfl, rfl, rfl, rfl, rfl, rfl, rfl, rfl, by simp, ?_, ?_⟩
      · intro j hj
        exact getD_set_ne _ _ j _ _ (fun h => hj h.symm)
      · intro ev' hev hlt
        have hev' : ev' = ev := by simpa using hev.symm
        subst hev'
        rw [getD_set_self _ _ _ 0 hlt, if_pos hcase]
    · have hrel : (!st.absolute_coord || !st.absolute_extrude) = true := by
        by_cases h1 : st.absolute_coord = true
        · by_cases h2 : st.absolute_extrude = true
          · exact absurd ⟨h1, h2⟩ hcase
          · simp only [Bool.not_eq_true] at h2
            simp [h2]
        · simp only [Bool.not_eq_true] at h1
          simp [h1]
      have hred : g1_apply_e st (some ev) =
          { st with last_position := st.last_position.set (st.last_position.length - 1) (st.last_position.getD (st.last_position.length - 1) 0 + ev * st.extrude_factor) } := by
        simp only [g1_apply_e, hrel, if_true]
      rw [hred]
      refine ⟨rfl, rfl, rfl, rfl, rfl, rfl, rfl, rfl, by simp, ?_, ?_⟩
      · intro j hj
        exact getD_set_ne _ _ j _ _ (fun h => hj h.symm)
      · intro ev' hev hlt
        have hev' : ev' = ev := by simpa using hev.symm
        subst hev'
        rw [getD_set_self _ _ _ 0 hlt, if_neg hcase]

/-- Shared staging lemma for the `cmd_G1` theorems: under a configured axis
set, the axis loop and the `E` update succeed and produce a state whose
speed fields are untouched and whose positions satisfy `G1PosSpec`. -/
theorem cmd_G1_stage (cfg : GCodeConfig) (st : GCodeMoveState) (p : G1Params)
    (hconf : ∀ i v, p.axes.get? i = some (some v) → cfg.configured.getD i false = true)
    (hax : p.axes.length < st.last_position.length) :
    ∃ r, g1_axes_loop cfg st 0 p.axes = .ok r
      ∧ (g1_apply_e r p.e).speed = st.speed
      ∧ (g1_apply_e r p.e).speed_factor = st.speed_factor
      ∧ G1PosSpec st p (g1_apply_e r p.e) := by
  obtain ⟨r, hr, h1, h2, h3, h4, h5, h6, h7, h8, h9, hlt, hge, hat⟩ :=
    g1_loop_spec cfg p.axes st 0
      (fun i v hk => by rw [Nat.zero_add]; exact hconf i v hk)
  obtain ⟨e1, e2, e3, e4, e5, e6, e7, e8, e9, eNe, eAt⟩ := g1_apply_e_spec r p.e
  refine ⟨r, hr, e5.trans h5, e6.trans h6, ?_, ?_⟩
  · intro i v hk
    have hi : i < p.axes.length := by
      by_contra hbig
      rw [List.get?_eq_none.mpr (by omega)] at hk
      cases hk
    have hival : r.last_position.getD i 0 =
        if st.absolute_coord then v + st.base_position.getD i 0
        else st.last_position.getD i 0 + v := by
      have h := hat i v hk (by omega)
      simpa using h
    have hne : i ≠ r.last_position.length - 1 := by
      rw [h9]; omega
    rw [eNe i hne, hival]
  · intro ev hev
    have hlen1 : 1 ≤ st.last_position.length := by omega
    have h := eAt ev hev (by rw [h9]; omega)
    rw [h9] at h
    rw [h, h1, h2, h3, h7]
    have hEidx : st.last_position.length - 1 ≥ 0 + p.axes.length := by omega
    have hlastE : r.last_position.getD (st.last_position.length - 1) 0 =
        st.last_position.getD (st.last_position.length - 1) 0 :=
      hge (st.last_position.length - 1) (by omega)
    rw [hlastE]

/-- Claim C1: for every G1/G0 command whose provided non-extruder axes lie in
the configured set, each provided axis slot of `last_position` becomes
`base + value` in absolute mode and `last + value` in relative mode; the `E`
value is scaled by `extrude_factor` and uses absolute semantics only when
both `absolute_coord` and `absolute_extrude` are true; an `F` word `≤ 0`
fails with the invalid-speed error; and otherwise the move is issued with the
updated `last_position` and speed. -/
theorem cmd_G1_spec (cfg : GCodeConfig) (st : GCodeMoveState) (p : G1Params)
    (hconf : ∀ i v, p.axes.get? i = some (some v) → cfg.configured.getD i false = true)
    (hax : p.axes.length < st.last_position.length) :
    (∀ f, p.f = some f → f ≤ 0 →
      ∃ st2, cmd_G1 cfg st p = .error ("Invalid speed", st2))
    ∧ (∀ f, p.f = some f → 0 < f →
      ∃ st3, cmd_G1 cfg st p = .ok (st3, st3.last_position, st3.speed)
        ∧ st3.speed = f * st.speed_factor ∧ G1PosSpec st p st3)
    ∧ (p.f = none →
      ∃ st2, cmd_G1 cfg st p = .ok (st2, st2.last_position, st2.speed)
        ∧ st2.speed = st.speed ∧ G1PosSpec st p st2) := by
  obtain ⟨r, hr, hsp, hspf, hpos⟩ := cmd_G1_stage cfg st p hconf hax
  refine ⟨?_, ?_, ?_⟩
  · intro f hf hf0
    refine ⟨g1_apply_e r p.e, ?_⟩
    simp only [cmd_G1, hr, hf, if_pos hf0]
  · intro f hf hf0
    refine ⟨{ g1_apply_e r p.e with speed := f * (g1_apply_e r p.e).speed_factor }, ?_, ?_, ?_⟩
    · simp only [cmd_G1, hr, hf, if_neg (by exact not_le.mpr hf0)]
    · simp only [hspf]
    · exact ⟨fun i v hk => hpos.1 i v hk, fun ev hev => hpos.2 ev hev⟩
  · intro hf
    exact ⟨g1_apply_e r p.e, by simp only [cmd_G1, hr, hf], hsp, hpos⟩

/-- Witness for C1: a relative `G1 X10 Y5 F600` from the default state. -/
theorem cmd_G1_spec_witness :
    ∃ st3, cmd_G1 { configured := [true, true, true], relative_e_restore := true }
        { absolute_coord := false, absolute_extrude := true,
          base_position := [0,0,0,0], last_position := [0,0,0,0],
          homing_position := [0,0,0,0], speed := 25, speed_factor := 1/60,
          extrude_factor := 1, saved_states := [] }
        { axes := [some 10, some 5, none], e := none, f := some 600 }
        = .ok (st3, st3.last_position, st3.speed)
      ∧ st3.speed = 600 * (1/60)
      ∧ G1PosSpec
          { absolute_coord := false, absolute_extrude := true,
            base_position := [0,0,0,0], last_position := [0,0,0,0],
            homing_position := [0,0,0,0], speed := 25, speed_factor := 1/60,
            extrude_factor := 1, saved_states := [] }
          { axes := [some 10, some 5, none], e := none, f := some 600 } st3 := by
  have h := (cmd_G1_spec
    { configured := [true, true, true], relative_e_restore := true }
    { absolute_coord := false, absolute_extrude := true,
      base_position := [0,0,0,0], last_position := [0,0,0,0],
      homing_position := [0,0,0,0], speed := 25, speed_factor := 1/60,
      extrude_factor := 1, saved_states := [] }
    { axes := [some 10, some 5, none], e := none, f := some 600 }
    (by intro i v hk; rcases i with _ | _ | _ | i <;> simp_all)
    (by decide)).2.1 600 rfl (by norm_num)
  exact h

/-- Claim C10: `cmd_G1` applies all axis updates to `last_position` before
validating the `F` word, so a command carrying axis words and `F ≤ 0` raises
the invalid-speed error with `last_position` already updated
(per `G1PosSpec`) while the stored `speed` is unchanged. -/
theorem cmd_G1_partial_update (cfg : GCodeConfig) (st : GCodeMoveState) (p : G1Params)
    (f : ℚ) (hf : p.f = some f) (hf0 : f ≤ 0)
    (hconf : ∀ i v, p.axes.get? i = some (some v) → cfg.configured.getD i false = true)
    (hax : p.axes.length < st.last_position.length) :
    ∃ st2, cmd_G1 cfg st p = .error ("Invalid speed", st2)
      ∧ st2.speed = st.speed
      ∧ st2.speed_factor = st.speed_factor
      ∧ G1PosSpec st p st2 := by
  obtain ⟨r, hr, hsp, hspf, hpos⟩ := cmd_G1_stage cfg st p hconf hax
  refine ⟨g1_apply_e r p.e, ?_, hsp, hspf, hpos⟩
  simp only [cmd_G1, hr, hf, if_pos hf0]

/-- Witness for C10: `G1 X7 F0` updates `X` of `last_position` before the
invalid-speed error. -/
theorem cmd_G1_partial_update_witness :
    ∃ st2, cmd_G1 { configured := [true, true, true], relative_e_restore := true }
        { absolute_coord := true, absolute_extrude := true,
          base_position := [1,0,0,0], last_position := [0,0,0,0],
          homing_position := [0,0,0,0], speed := 25, speed_factor := 1/60,
          extrude_factor := 1, saved_states := [] }
        { axes := [some 7, none, none], e := none, f := some 0 }
        = .error ("Invalid speed", st2)
      ∧ st2.speed = 25
      ∧ st2.speed_factor = 1/60
      ∧ G1PosSpec
          { absolute_coord := true, absolute_extrude := true,
            base_position := [1,0,0,0], last_position := [0,0,0,0],
            homing_position := [0,0,0,0], speed := 25, speed_factor := 1/60,
            extrude_factor := 1, saved_states := [] }
          { axes := [some 7, none, none], e := none, f := some 0 } st2 :=
  cmd_G1_partial_update
    { configured := [true, true, true], relative_e_restore := true }
    { absolute_coord := true, absolute_extrude := true,
      base_position := [1,0,0,0], last_position := [0,0,0,0],
      homing_position := [0,0,0,0], speed := 25, speed_factor := 1/60,
      extrude_factor := 1, saved_states := [] }
    { axes := [some 7, none, none], e := none, f := some 0 } 0 rfl (by norm_num)
    (by intro i v hk; rcases i with _ | _ | _ | i <;> simp_all)
    (by decide)

/-! ## C6: check_no_movement -/

/-- The `probe_axes` loop returns a name exactly when some tracked stepper
did not move and matches the axes list. -/
theorem cnm_loop_ne_none_iff (axs : List String) :
    ∀ sps : List SP,
      cnm_loop axs sps ≠ none ↔
        ∃ sp ∈ sps, sp.start_pos = sp.trig_pos ∧ spMatches axs sp.stepper_name = true := by
  intro sps
  induction sps with
  | nil => simp [cnm_loop]
  | cons sp rest ih =>
    by_cases hsp : sp.start_pos = sp.trig_pos ∧ spMatches axs sp.stepper_name = true
    · simp only [cnm_loop, if_pos hsp]
      constructor
      · intro _
        exact ⟨sp, List.mem_cons_self sp rest, hsp⟩
      · intro _
        simp
    · simp only [cnm_loop, if_neg hsp]
      rw [ih]
      constructor
      · rintro ⟨x, hx, hxx⟩
        exact ⟨x, List.mem_cons_of_mem sp hx, hxx⟩
      · rintro ⟨x, hx, hxx⟩
        rcases List.mem_cons.mp hx with hh | hh
        · subst hh
          exact absurd hxx hsp
        · exact ⟨x, hh, hxx⟩

/-- Claim C6: with a live (non-`debuginput`) printer and at least one tracked
stepper, `check_no_movement()` with no axes returns a (non-None) endstop name
iff every tracked stepper satisfies `start_pos == trig_pos` — in which case
it returns the first endstop's name — and `check_no_movement(probe_axes)`
returns a non-None name iff some stepper that did not move matches an element
of `probe_axes` (extruder names matched exactly, xyz letters by substring,
per `spMatches`). -/
theorem check_no_movement_spec (sps : List SP) (hne : sps ≠ []) :
    (check_no_movement false sps none ≠ none ↔
      ∀ sp ∈ sps, sp.start_pos = sp.trig_pos)
    ∧ ((∀ sp ∈ sps, sp.start_pos = sp.trig_pos) →
      check_no_movement false sps none = sps.head?.map (fun sp => sp.endstop_name))
    ∧ (∀ axs : List String, check_no_movement false sps (some axs) ≠ none ↔
      ∃ sp ∈ sps, sp.start_pos = sp.trig_pos ∧ spMatches axs sp.stepper_name = true) := by
  have hunf : check_no_movement false sps none =
      (if ((sps.filter (fun sp => sp.start_pos ≠ sp.trig_pos)).map
            (fun sp => sp.stepper_name)).isEmpty then
        sps.head?.map (fun sp => sp.endstop_name)
      else none) := rfl
  have hcond : (((sps.filter (fun sp => sp.start_pos ≠ sp.trig_pos)).map
        (fun sp => sp.stepper_name)).isEmpty = true) ↔
      ∀ sp ∈ sps, sp.start_pos = sp.trig_pos := by
    rw [List.isEmpty_iff, List.map_eq_nil_iff, List.filter_eq_nil_iff]
    constructor
    · intro h sp hsp
      simpa using h sp hsp
    · intro h sp hsp
      simpa using h sp hsp
  refine ⟨?_, ?_, ?_⟩
  · rw [hunf]
    by_cases hall : ∀ sp ∈ sps, sp.start_pos = sp.trig_pos
    · rw [if_pos (hcond.mpr hall)]
      constructor
      · intro _
        exact hall
      · intro _
        cases sps with
        | nil => exact absurd rfl hne
        | cons a t => simp
    · rw [if_neg (fun h => hall (hcond.mp h))]
      constructor
      · intro h
        exact absurd rfl h
      · intro h
        exact absurd h hall
  · intro hall
    rw [hunf, if_pos (hcond.mpr hall)]
  · intro axs
    simpa [check_no_movement] using cnm_loop_ne_none_iff axs sps

/-- Witness for C6: one x-axis stepper that did not move, checked both with
no axes argument and with `probe_axes = ["x"]`. -/
theorem check_no_movement_spec_witness :
    (check_no_movement false [⟨"stepper_x", "x_virtual", 5, 9, 5⟩] none ≠ none ↔
      ∀ sp ∈ [(⟨"stepper_x", "x_virtual", 5, 9, 5⟩ : SP)], sp.start_pos = sp.trig_pos)
    ∧ ((∀ sp ∈ [(⟨"stepper_x", "x_virtual", 5, 9, 5⟩ : SP)], sp.start_pos = sp.trig_pos) →
      check_no_movement false [⟨"stepper_x", "x_virtual", 5, 9, 5⟩] none =
        [(⟨"stepper_x", "x_virtual", 5, 9, 5⟩ : SP)].head?.map (fun sp => sp.endstop_name))
    ∧ (∀ axs : List String,
      check_no_movement false [⟨"stepper_x", "x_virtual", 5, 9, 5⟩] (some axs) ≠ none ↔
        ∃ sp ∈ [(⟨"stepper_x", "x_virtual", 5, 9, 5⟩ : SP)],
          sp.start_pos = sp.trig_pos ∧ spMatches axs sp.stepper_name = true) :=
  check_no_movement_spec [⟨"stepper_x", "x_virtual", 5, 9, 5⟩] (by decide)

/-! ## C4: homing_move tail (probe_pos = false) -/

/-- The overshoot list has a nonzero entry iff some stepper halted past its
trigger position. -/
theorem over_steps_any_iff (sps : List SP) :
    ((over_steps sps).any (fun p => p.2 ≠ 0) = true) ↔
      ∃ sp ∈ sps, sp.halt_pos ≠ sp.trig_pos := by
  rw [List.any_eq_true]
  constructor
  · rintro ⟨p, hp, hv⟩
    rcases List.mem_map.mp hp with ⟨sp, hsp, hmk⟩
    refine ⟨sp, hsp, ?_⟩
    intro heq
    rw [← hmk] at hv
    simp only [decide_eq_true_eq] at hv
    exact hv (by rw [heq]; ring)
  · rintro ⟨sp, hsp, hv⟩
    refine ⟨(sp.stepper_name, sp.halt_pos - sp.trig_pos), List.mem_map.mpr ⟨sp, hsp, rfl⟩, ?_⟩
    simpa using sub_ne_zero_of_ne hv

/-- Claim C4: in a `homing_move` with `probe_pos=False`, `haltpos` and
`trigpos` start as `movepos`; with no overshoot the toolhead is set once to
`movepos`; with overshoot on some stepper the toolhead is provisionally set
to `movepos`, the stepper commanded positions are snapshotted, `haltpos` is
recomputed by `calc_toolhead_pos` from that snapshot and the overshoot, and
the toolhead is finally set to `haltpos`; `homing:homing_move_end` is
emitted, a recorded error is raised, and otherwise `trigpos = movepos` is
returned. -/
theorem homing_move_finish_spec (th : Toolhead) (movepos : List ℚ) (sps : List SP)
    (error : Option String)
    (hnames : (sps.map (fun sp => sp.stepper_name)).Nodup) :
    (homing_move_finish th movepos sps error none).trigpos = movepos
    ∧ (homing_move_finish th movepos sps error none).events = ["homing:homing_move_end"]
    ∧ (error = none →
        (homing_move_finish th movepos sps error none).result = .ok movepos)
    ∧ (∀ e, error = some e →
        (homing_move_finish th movepos sps error none).result = .error e)
    ∧ ((∀ sp ∈ sps, sp.halt_pos = sp.trig_pos) →
        (homing_move_finish th movepos sps error none).haltpos = movepos
        ∧ (homing_move_finish th movepos sps error none).set_position_calls = [movepos]
        ∧ (homing_move_finish th movepos sps error none).toolhead = toolheadSetPos th movepos)
    ∧ ((∃ sp ∈ sps, sp.halt_pos ≠ sp.trig_pos) →
        (homing_move_finish th movepos sps error none).haltpos =
          calc_toolhead_pos (toolheadSetPos th movepos)
            (calc_halt_kin_spos (toolheadSetPos th movepos)) (over_steps sps)
        ∧ (homing_move_finish th movepos sps error none).set_position_calls =
          [movepos,
            calc_toolhead_pos (toolheadSetPos th movepos)
              (calc_halt_kin_spos (toolheadSetPos th movepos)) (over_steps sps)]
        ∧ (homing_move_finish th movepos sps error none).toolhead =
          toolheadSetPos (toolheadSetPos th movepos)
            (calc_toolhead_pos (toolheadSetPos th movepos)
              (calc_halt_kin_spos (toolheadSetPos th movepos)) (over_steps sps))) := by
  by_cases hc : (over_steps sps).any (fun p => p.2 ≠ 0) = true
  · have hred : homing_move_finish th movepos sps error none =
        { toolhead := toolheadSetPos (toolheadSetPos th movepos)
            (calc_toolhead_pos (toolheadSetPos th movepos)
              (calc_halt_kin_spos (toolheadSetPos th movepos)) (over_steps sps))
          set_position_calls := [movepos,
            calc_toolhead_pos (toolheadSetPos th movepos)
              (calc_halt_kin_spos (toolheadSetPos th movepos)) (over_steps sps)]
          haltpos := calc_toolhead_pos (toolheadSetPos th movepos)
            (calc_halt_kin_spos (toolheadSetPos th movepos)) (over_steps sps)
          trigpos := movepos
          events := ["homing:homing_move_end"]
          result := match error with | some e => .error e | none => .ok movepos } := by
      simp only [homing_move_finish, if_pos hc]
      cases error <;> rfl
    rw [hred]
    refine ⟨rfl, rfl, ?_, ?_, ?_, ?_⟩
    · intro he
      rw [he]
    · intro e he
      rw [he]
    · intro hall
      exact absurd ((over_steps_any_iff sps).mp hc)
        (by
          rintro ⟨sp, hsp, hne⟩
          exact hne (hall sp hsp))
    · intro _
      exact ⟨rfl, rfl, rfl⟩
  · have hred : homing_move_finish th movepos sps error none =
        { toolhead := toolheadSetPos th movepos
          set_position_calls := [movepos]
          haltpos := movepos
          trigpos := movepos
          events := ["homing:homing_move_end"]
          result := match error with | some e => .error e | none => .ok movepos } := by
      simp only [homing_move_finish, if_neg hc]
      cases error <;> rfl
    rw [hred]
    refine ⟨rfl, rfl, ?_, ?_, ?_, ?_⟩
    · intro he
      rw [he]
    · intro e he
      rw [he]
    · intro _
      exact ⟨rfl, rfl, rfl⟩
    · intro hex
      exact absurd ((over_steps_any_iff sps).mpr hex) hc

/-- Witness for C4: a single-kinematics toolhead whose x stepper overshot its
trigger by 10 steps. -/
theorem homing_move_finish_spec_witness :
    (homing_move_finish
      { kins := [⟨[⟨"stepper_x", 1/100⟩, ⟨"stepper_y", 1/100⟩, ⟨"stepper_z", 1/100⟩]⟩],
        extruder_steppers := [], active_extruder := none,
        commanded_pos := [0,0,0,0], stepper_cmd := [] }
      [200, 0, 0, 0] [⟨"stepper_x", "x_virtual", 0, 5010, 5000⟩] none none).trigpos
      = [200, 0, 0, 0]
    ∧ (homing_move_finish
      { kins := [⟨[⟨"stepper_x", 1/100⟩, ⟨"stepper_y", 1/100⟩, ⟨"stepper_z", 1/100⟩]⟩],
        extruder_steppers := [], active_extruder := none,
        commanded_pos := [0,0,0,0], stepper_cmd := [] }
      [200, 0, 0, 0] [⟨"stepper_x", "x_virtual", 0, 5010, 5000⟩] none none).events
      = ["homing:homing_move_end"] := by
  have h := homing_move_finish_spec
    { kins := [⟨[⟨"stepper_x", 1/100⟩, ⟨"stepper_y", 1/100⟩, ⟨"stepper_z", 1/100⟩]⟩],
      extruder_steppers := [], active_extruder := none,
      commanded_pos := [0,0,0,0], stepper_cmd := [] }
    [200, 0, 0, 0] [⟨"stepper_x", "x_virtual", 0, 5010, 5000⟩] none (by decide)
  exact ⟨h.1, h.2.1⟩

/-! ## C5: home_rails retract phase -/

/-- Counterexample to claim C5 as stated: with `startpos = [0,0,0,0]`,
`homepos = [10,0,0,0]` (so `move_d = 10`, satisfying
`move_d² = Σ d²` over the non-extruder deltas) and `retract_dist = 5`, the
position handed to `toolhead.set_position` before the second homing move is
`[0,0,0,0]`, not the retract position `[5,0,0,0]`: the source backs off from
`retractpos` by `axes_d * retract_r` a second time
(homing.py lines 557-560). -/
theorem home_rails_retract_counterexample :
    (10 : ℚ) * 10 =
      sumsq (List.zipWith (fun hp sp => hp - sp) ([10,0,0,0] : List ℚ) [0,0,0,0]).dropLast
    ∧ (0 : ℚ) < 5
    ∧ (home_rails_retract [0,0,0,0] [10,0,0,0] 10 5 20 10
        [⟨"stepper_x", "x_virtual", 0, 100, 90⟩] false).set_pos
      ≠ (home_rails_retract [0,0,0,0] [10,0,0,0] 10 5 20 10
        [⟨"stepper_x", "x_virtual", 0, 100, 90⟩] false).retractpos := by
  refine ⟨by norm_num [sumsq], by norm_num, ?_⟩
  intro h
  have h0 := congrArg (fun l => l.getD 0 (0 : ℚ)) h
  norm_num [home_rails_retract, check_no_movement, cnm_loop] at h0

/-- Claim C5 (amended): for a rail with `retract_dist > 0`, the retract
position backs off from the home position along the homing vector by the
fraction `min(1, retract_dist / move_d)`; the toolhead moves there at the
retract speed; the toolhead position is then set to the point backed off from
the retract position by the same fraction again
(`retractpos - axes_d * retract_r`); the homing move to the home position is
repeated at `second_homing_speed`; and afterwards a non-None
`check_no_movement()` result raises
"Endstop ... still triggered after retract". -/
theorem home_rails_retract_spec (startpos homepos : List ℚ) (move_d : ℚ)
    (retract_dist retract_speed second_homing_speed : ℚ) (sps2 : List SP)
    (hrd : 0 < retract_dist) (hmd : 0 ≤ move_d)
    (hsq : move_d * move_d =
      sumsq (List.zipWith (fun hp sp => hp - sp) homepos startpos).dropLast) :
    (home_rails_retract startpos homepos move_d retract_dist retract_speed
        second_homing_speed sps2 false).retractpos =
      List.zipWith (fun hp ad => hp - ad * min 1 (retract_dist / move_d)) homepos
        (List.zipWith (fun hp sp => hp - sp) homepos startpos)
    ∧ (home_rails_retract startpos homepos move_d retract_dist retract_speed
        second_homing_speed sps2 false).moves =
      [((home_rails_retract startpos homepos move_d retract_dist retract_speed
          second_homing_speed sps2 false).retractpos, retract_speed)]
    ∧ (home_rails_retract startpos homepos move_d retract_dist retract_speed
        second_homing_speed sps2 false).set_pos =
      List.zipWith (fun rp ad => rp - ad * min 1 (retract_dist / move_d))
        (home_rails_retract startpos homepos move_d retract_dist retract_speed
          second_homing_speed sps2 false).retractpos
        (List.zipWith (fun hp sp => hp - sp) homepos startpos)
    ∧ (home_rails_retract startpos homepos move_d retract_dist retract_speed
        second_homing_speed sps2 false).second_home = (homepos, second_homing_speed)
    ∧ (∀ es, check_no_movement false sps2 none = some es →
        (home_rails_retract startpos homepos move_d retract_dist retract_speed
          second_homing_speed sps2 false).error =
        some ("Endstop " ++ es ++ " still triggered after retract"))
    ∧ (check_no_movement false sps2 none = none →
        (home_rails_retract startpos homepos move_d retract_dist retract_speed
          second_homing_speed sps2 false).error = none) := by
  refine ⟨rfl, rfl, rfl, rfl, ?_, ?_⟩
  · intro es hes
    simp only [home_rails_retract, hes]
  · intro hnone
    simp only [home_rails_retract, hnone]

/-- Witness for C5 at the counterexample's input (one stepper that moved on
the second homing move, so no retract error). -/
theorem home_rails_retract_spec_witness :
    (home_rails_retract [0,0,0,0] [10,0,0,0] 10 5 20 10
        [⟨"stepper_x", "x_virtual", 0, 100, 90⟩] false).retractpos =
      List.zipWith (fun hp ad => hp - ad * min 1 ((5:ℚ) / 10)) [10,0,0,0]
        (List.zipWith (fun hp sp => hp - sp) ([10,0,0,0] : List ℚ) [0,0,0,0])
    ∧ (home_rails_retract [0,0,0,0] [10,0,0,0] 10 5 20 10
        [⟨"stepper_x", "x_virtual", 0, 100, 90⟩] false).second_home = ([10,0,0,0], 10) := by
  have h := home_rails_retract_spec [0,0,0,0] [10,0,0,0] 10 5 20 10
    [⟨"stepper_x", "x_virtual", 0, 100, 90⟩]
    (by norm_num) (by norm_num) (by norm_num [sumsq])
  exact ⟨h.1, h.2.2.2.1⟩

/-! ## C7: kinematics set_position and homed-axis reporting -/

/-- The rails component of the `set_position` loop: every rail adopts the
new position. -/
theorem ksp_loop_rails (newpos : List ℚ) (ha : List Nat) :
    ∀ (rails : List Rail) (limits : List (ℚ × ℚ)) (i : Nat),
      (ksp_loop newpos ha rails limits i).1 = rails.map (fun r => railSetPos r newpos) := by
  intro rails
  induction rails with
  | nil => intro limits i; rfl
  | cons r rest ih =>
    intro limits i
    show railSetPos r newpos ::
        (ksp_loop newpos ha rest
          (if i ∈ ha then limits.set i (r.range_lo, r.range_hi) else limits) (i + 1)).1
      = railSetPos r newpos :: rest.map (fun r => railSetPos r newpos)
    rw [ih _ (i + 1)]

/-- Limit slots below the loop cursor are untouched. -/
theorem ksp_loop_limits_lt (newpos : List ℚ) (ha : List Nat) :
    ∀ (rails : List Rail) (limits : List (ℚ × ℚ)) (i j : Nat), j < i →
      (ksp_loop newpos ha rails limits i).2.getD j (1, -1) = limits.getD j (1, -1) := by
  intro rails
  induction rails with
  | nil => intro limits i j _; rfl
  | cons r rest ih =>
    intro limits i j hj
    simp only [ksp_loop]
    by_cases hmem : i ∈ ha
    · rw [if_pos hmem, ih _ (i + 1) j (Nat.lt_succ_of_lt hj)]
      exact getD_set_ne _ i j _ _ (Nat.ne_of_gt hj)
    · rw [if_neg hmem]
      exact ih _ (i + 1) j (Nat.lt_succ_of_lt hj)

/-- The limit slot of rail `j` after the `set_position` loop: the rail's
declared range when `j` is a homed axis, the previous limits otherwise. -/
theorem ksp_loop_limits_at (newpos : List ℚ) (ha : List Nat) :
    ∀ (rails : List Rail) (limits : List (ℚ × ℚ)) (i j : Nat),
      i ≤ j → j < i + rails.length → i + rails.length ≤ limits.length →
      (ksp_loop newpos ha rails limits i).2.getD j (1, -1) =
        if j ∈ ha then
          ((rails.getD (j - i) dRail).range_lo, (rails.getD (j - i) dRail).range_hi)
        else limits.getD j (1, -1) := by
  intro rails
  induction rails with
  | nil =>
    intro limits i j h1 h2 _
    simp only [List.length_nil] at h2
    omega
  | cons r rest ih =>
    intro limits i j h1 h2 hlen
    simp only [List.length_cons] at h2 hlen
    rcases Nat.eq_or_lt_of_le h1 with heq | hlt
    · subst heq
      simp only [ksp_loop, Nat.sub_self, List.getD_cons_zero]
      by_cases hmem : i ∈ ha
      · rw [if_pos hmem, if_pos hmem,
          ksp_loop_limits_lt newpos ha rest _ (i + 1) i (Nat.lt_succ_self i)]
        exact getD_set_self _ i _ (1, -1) (by omega)
      · rw [if_neg hmem, if_neg hmem,
          ksp_loop_limits_lt newpos ha rest _ (i + 1) i (Nat.lt_succ_self i)]
    · have hstep : (j - i) = (j - (i + 1)) + 1 := by omega
      simp only [ksp_loop]
      by_cases hmem : i ∈ ha
      · rw [if_pos hmem,
          ih _ (i + 1) j (by omega) (by omega) (by simp only [List.length_set]; omega)]
        rw [hstep, List.getD_cons_succ]
        by_cases hj : j ∈ ha
        · rw [if_pos hj, if_pos hj]
        · rw [if_neg hj, if_neg hj]
          exact getD_set_ne _ i j _ _ (by omega)
      · rw [if_neg hmem, ih _ (i + 1) j (by omega) (by omega) (by omega)]
        rw [hstep, List.getD_cons_succ]

/-- Membership in the reported `homed_axes` of a kinematics whose axis
letters are distinct: the letter at index `j` is listed iff its limit slot
satisfies `low ≤ high`. -/
theorem kinHomedAxes_mem_iff (k : KinABC) (j : Nat) (a : Char)
    (hnd : k.axis_names.Nodup) (hj : k.axis_names.get? j = some a)
    (hjl : j < k.limits.length) :
    a ∈ kinHomedAxes k ↔ (k.limits.getD j (1, -1)).1 ≤ (k.limits.getD j (1, -1)).2 := by
  have hj' : k.axis_names[j]? = some a := by
    rw [← List.get?_eq_getElem?]
    exact hj
  have hjn : j < k.axis_names.length := by
    by_contra hbig
    rw [List.get?_eq_none.mpr (by omega)] at hj
    cases hj
  have hlim : k.limits[j]? = some (k.limits[j]) := List.getElem?_eq_getElem hjl
  have hgetD : k.limits.getD j (1, -1) = k.limits[j] := by
    rw [List.getD_eq_getElem?_getD, hlim]
    rfl
  constructor
  · intro hmem
    simp only [kinHomedAxes, List.mem_map, List.mem_filter] at hmem
    rcases hmem with ⟨p, ⟨hpz, hple⟩, hpa⟩
    rcases List.mem_iff_getElem?.mp hpz with ⟨m, hm⟩
    rw [List.getElem?_zip_eq_some] at hm
    rcases hm with ⟨hm1, hm2⟩
    have hmlt : m < k.axis_names.length := by
      rcases List.getElem?_eq_some.mp hm1 with ⟨hh, _⟩
      exact hh
    have hmj : m = j := by
      refine List.getElem?_inj hmlt hnd ?_
      rw [hm1, hpa, hj']
    rw [hmj] at hm2
    rw [hlim] at hm2
    have hp2 : p.2 = k.limits[j] := by
      injection hm2 with h
      exact h.symm
    rw [hgetD, ← hp2]
    simpa using hple
  · intro hle
    refine List.mem_map.mpr ⟨(a, k.limits[j]), List.mem_filter.mpr ⟨?_, ?_⟩, rfl⟩
    · refine List.mem_iff_getElem?.mpr ⟨j, ?_⟩
      rw [List.getElem?_zip_eq_some]
      exact ⟨hj', hlim⟩
    · rw [hgetD] at hle
      simpa using hle

/-- Claim C7: `set_position(newpos, homing_axes)` sets every rail's position
to `newpos` and adopts rail `i`'s declared range as `limits[i]` exactly when
`i` is in `homing_axes`; consequently, after homing axis `i` the limit slot
equals the rail's declared range and (when that range is well-formed)
satisfies `low ≤ high`; an axis letter is reported as homed in `homed_axes`
iff its limit slot satisfies `low ≤ high`, and the unhomed sentinel
`(1.0, -1.0)` fails that test. -/
theorem kin_set_position_spec (k : KinABC) (newpos : List ℚ) (ha : List Nat) (i : Nat)
    (hi : i < k.rails.length) (hlim : k.rails.length ≤ k.limits.length) :
    (kinSetPosition k newpos ha).rails = k.rails.map (fun r => railSetPos r newpos)
    ∧ (i ∈ ha → (kinSetPosition k newpos ha).limits.getD i (1, -1) =
        ((k.rails.getD i dRail).range_lo, (k.rails.getD i dRail).range_hi))
    ∧ (i ∉ ha → (kinSetPosition k newpos ha).limits.getD i (1, -1) =
        k.limits.getD i (1, -1))
    ∧ (i ∈ ha → (k.rails.getD i dRail).range_lo ≤ (k.rails.getD i dRail).range_hi →
        ((kinSetPosition k newpos ha).limits.getD i (1, -1)).1 ≤
          ((kinSetPosition k newpos ha).limits.getD i (1, -1)).2)
    ∧ (∀ j a, (kinSetPosition k newpos ha).axis_names.Nodup →
        (kinSetPosition k newpos ha).axis_names.get? j = some a →
        j < (kinSetPosition k newpos ha).limits.length →
        (a ∈ kinHomedAxes (kinSetPosition k newpos ha) ↔
          ((kinSetPosition k newpos ha).limits.getD j (1, -1)).1 ≤
            ((kinSetPosition k newpos ha).limits.getD j (1, -1)).2))
    ∧ ¬ ((1 : ℚ) ≤ (-1 : ℚ)) := by
  have hat := ksp_loop_limits_at newpos ha k.rails k.limits 0 i (Nat.zero_le i)
    (by omega) (by omega)
  simp only [Nat.zero_add, Nat.sub_zero] at hat
  refine ⟨ksp_loop_rails newpos ha k.rails k.limits 0, ?_, ?_, ?_, ?_, by norm_num⟩
  · intro hmem
    rw [kinSetPosition]
    rw [hat, if_pos hmem]
  · intro hmem
    rw [kinSetPosition]
    rw [hat, if_neg hmem]
  · intro hmem hwf
    rw [kinSetPosition]
    rw [hat, if_pos hmem]
    exact hwf
  · intro j a hnd hj hjl
    exact kinHomedAxes_mem_iff (kinSetPosition k newpos ha) j a hnd hj hjl

/-- Witness for C7: a three-rail XYZ kinematics homing axes 0 and 2. -/
theorem kin_set_position_spec_witness :
    (kinSetPosition
      { axis_names := ['x','y','z'],
        rails := [⟨"stepper_x", 0, 0, 200, 0⟩, ⟨"stepper_y", 1, 0, 180, 0⟩,
                  ⟨"stepper_z", 2, 0, 150, 0⟩],
        limits := [(1,-1),(1,-1),(1,-1)] } [7,8,9,0] [0, 2]).limits.getD 0 (1, -1) = (0, 200)
    ∧ ((kinSetPosition
      { axis_names := ['x','y','z'],
        rails := [⟨"stepper_x", 0, 0, 200, 0⟩, ⟨"stepper_y", 1, 0, 180, 0⟩,
                  ⟨"stepper_z", 2, 0, 150, 0⟩],
        limits := [(1,-1),(1,-1),(1,-1)] } [7,8,9,0] [0, 2]).limits.getD 0 (1, -1)).1 ≤
      ((kinSetPosition
      { axis_names := ['x','y','z'],
        rails := [⟨"stepper_x", 0, 0, 200, 0⟩, ⟨"stepper_y", 1, 0, 180, 0⟩,
                  ⟨"stepper_z", 2, 0, 150, 0⟩],
        limits := [(1,-1),(1,-1),(1,-1)] } [7,8,9,0] [0, 2]).limits.getD 0 (1, -1)).2 := by
  have h := kin_set_position_spec
    { axis_names := ['x','y','z'],
      rails := [⟨"stepper_x", 0, 0, 200, 0⟩, ⟨"stepper_y", 1, 0, 180, 0⟩,
                ⟨"stepper_z", 2, 0, 150, 0⟩],
      limits := [(1,-1),(1,-1),(1,-1)] } [7,8,9,0] [0, 2] 0 (by decide) (by decide)
  refine ⟨?_, h.2.2.2.1 (by decide) (by norm_num)⟩
  have h2 := h.2.1 (by decide)
  rw [h2]
  rfl

/-! ## C8: extruder check_move -/

/-- The stepper limit check never produces the extrude-only-too-long
message. -/
theorem eCheckMoveLimits_ne_too_long (es : EStepper) (m : EMove) :
    eCheckMoveLimits es m ≠ some "Extrude only move too long" := by
  intro h
  by_cases h1 : (es.can_home && es.limits_enabled) = true
  · by_cases h2 : lastQ m.end_pos < es.limit_lo ∨ lastQ m.end_pos > es.limit_hi
    · by_cases h3 : lastQ m.axes_d ≠ 0 ∧
          (lastQ m.end_pos < es.limit_lo ∨ lastQ m.end_pos > es.limit_hi)
      · by_cases h4 : es.limit_lo > es.limit_hi
        · rw [eCheckMoveLimits, if_pos h1, if_pos h2, eCheckEndstops,
            if_pos h3, if_pos h4] at h
          injection h with h
          exact absurd h (by decide)
        · by_cases h5 : es.limits_enabled = true
          · rw [eCheckMoveLimits, if_pos h1, if_pos h2, eCheckEndstops,
              if_pos h3, if_neg h4, if_pos h5] at h
            injection h with h
            exact absurd h (by decide)
          · rw [eCheckMoveLimits, if_pos h1, if_pos h2, eCheckEndstops,
              if_pos h3, if_neg h4, if_neg h5] at h
            cases h
      · rw [eCheckMoveLimits, if_pos h1, if_pos h2, eCheckEndstops, if_neg h3] at h
        cases h
    · rw [eCheckMoveLimits, if_pos h1, if_neg h2] at h
      cases h
  · rw [eCheckMoveLimits, if_neg h1] at h
    cases h

/-- Claim C8: `check_move` fails with the extrude-below-minimum-temp error
when the heater cannot extrude; otherwise, when the move is a retraction
(`axis_r < 0`), a pure extrusion (`axes_d[0] = axes_d[1] = 0`), or the
extruder has `symmetric_speed_limits`, it is rejected with the
extrude-only-too-long error iff `|axes_d[E]| > max_extrude_only_distance`,
and otherwise its velocity and acceleration are capped by the extrude-only
limits scaled by `1/|axis_r|`. -/
theorem extruderCheckMove_spec (cfg : ExtruderConfig) (es : EStepper) (m : EMove)
    (hr : lastQ m.axes_r ≠ 0) :
    (cfg.can_extrude = false →
      extruderCheckMove cfg es m = (m, some "Extrude below minimum temp"))
    ∧ (cfg.can_extrude = true →
      ((m.axes_d.getD 0 0 = 0 ∧ m.axes_d.getD 1 0 = 0) ∨ lastQ m.axes_r < 0 ∨
          cfg.symmetric = true) →
        (((extruderCheckMove cfg es m).2 = some "Extrude only move too long") ↔
          |lastQ m.axes_d| > cfg.max_e_dist)
        ∧ (|lastQ m.axes_d| ≤ cfg.max_e_dist →
            (extruderCheckMove cfg es m).1 =
              limitSpeed m (cfg.max_e_velocity * (1 / |lastQ m.axes_r|))
                (cfg.max_e_accel * (1 / |lastQ m.axes_r|)))) := by
  constructor
  · intro hcold
    rw [extruderCheckMove]
    rw [if_pos (by rw [hcold]; rfl)]
  · intro hhot hcond
    have hnot : ¬ ((!cfg.can_extrude) = true) := by
      rw [hhot]
      decide
    have hcond' : (m.axes_d.getD 0 0 = 0 ∧ m.axes_d.getD 1 0 = 0) ∨ lastQ m.axes_r < 0 ∨
        cfg.symmetric = true := hcond
    by_cases hlong : |lastQ m.axes_d| > cfg.max_e_dist
    · have hred : extruderCheckMove cfg es m = (m, some "Extrude only move too long") := by
        rw [extruderCheckMove, if_neg hnot, if_pos hcond', if_pos hlong]
      rw [hred]
      exact ⟨by simp [hlong], fun habs => absurd hlong (not_lt.mpr habs)⟩
    · have hred : extruderCheckMove cfg es m =
          (limitSpeed m (cfg.max_e_velocity * (1 / |lastQ m.axes_r|))
              (cfg.max_e_accel * (1 / |lastQ m.axes_r|)),
            eCheckMoveLimits es
              (limitSpeed m (cfg.max_e_velocity * (1 / |lastQ m.axes_r|))
                (cfg.max_e_accel * (1 / |lastQ m.axes_r|)))) := by
        rw [extruderCheckMove, if_neg hnot, if_pos hcond', if_neg hlong]
      rw [hred]
      constructor
      · constructor
        · intro h
          exact absurd h (eCheckMoveLimits_ne_too_long es _)
        · intro h
          exact absurd h hlong
      · intro _
        rfl

/-- Witness for C8: a pure 3 mm retraction within the extrude-only distance
gets the scaled velocity/acceleration caps. -/
theorem extruderCheckMove_spec_witness :
    ((extruderCheckMove
        { can_extrude := true, max_e_dist := 50, max_e_velocity := 100,
          max_e_accel := 1000, max_extrude_frac := 2, nozzle_diameter := 1,
          filament_area := 2, symmetric := false }
        { can_home := false, limit_lo := 1, limit_hi := -1, limits_enabled := true }
        { axes_d := [0,0,0,-3], axes_r := [0,0,0,-1], end_pos := [0,0,0,-3],
          max_v := 500, max_a := 5000 }).2 = some "Extrude only move too long" ↔
      |lastQ ([0,0,0,-3] : List ℚ)| > (50 : ℚ))
    ∧ (|lastQ ([0,0,0,-3] : List ℚ)| ≤ (50 : ℚ) →
      (extruderCheckMove
        { can_extrude := true, max_e_dist := 50, max_e_velocity := 100,
          max_e_accel := 1000, max_extrude_frac := 2, nozzle_diameter := 1,
          filament_area := 2, symmetric := false }
        { can_home := false, limit_lo := 1, limit_hi := -1, limits_enabled := true }
        { axes_d := [0,0,0,-3], axes_r := [0,0,0,-1], end_pos := [0,0,0,-3],
          max_v := 500, max_a := 5000 }).1 =
        limitSpeed
          { axes_d := [0,0,0,-3], axes_r := [0,0,0,-1], end_pos := [0,0,0,-3],
            max_v := 500, max_a := 5000 }
          (100 * (1 / |lastQ ([0,0,0,-1] : List ℚ)|))
          (1000 * (1 / |lastQ ([0,0,0,-1] : List ℚ)|))) := by
  have h := (extruderCheckMove_spec
    { can_extrude := true, max_e_dist := 50, max_e_velocity := 100,
      max_e_accel := 1000, max_extrude_frac := 2, nozzle_diameter := 1,
      filament_area := 2, symmetric := false }
    { can_home := false, limit_lo := 1, limit_hi := -1, limits_enabled := true }
    { axes_d := [0,0,0,-3], axes_r := [0,0,0,-1], end_pos := [0,0,0,-3],
      max_v := 500, max_a := 5000 }
    (by decide)).2 rfl (Or.inr (Or.inl (by decide)))
  exact h

/-! ## C9: saved G-code states are never mutated -/

/-- The `cmd_G1` axis loop leaves `saved_states` untouched, whether it
succeeds or raises. -/
theorem g1_axes_loop_saved (cfg : GCodeConfig) (axes : List (Option ℚ)) :
    ∀ (st : GCodeMoveState) (pos : Nat),
      (∀ r, g1_axes_loop cfg st pos axes = .ok r → r.saved_states = st.saved_states)
      ∧ (∀ r, g1_axes_loop cfg st pos axes = .error r → r.saved_states = st.saved_states) := by
  induction axes with
  | nil =>
    intro st pos
    constructor
    · intro r hr
      injection hr with hr
      rw [← hr]
    · intro r hr
      cases hr
  | cons o rest ih =>
    intro st pos
    cases o with
    | none => exact ih st (pos + 1)
    | some v =>
      by_cases hc : cfg.configured.getD pos false = true
      · have hred : g1_axes_loop cfg st pos (some v :: rest) =
            g1_axes_loop cfg (applyAxis st pos v) (pos + 1) rest := by
          simp only [g1_axes_loop, hc, if_true]
        rw [hred]
        have hsave := (applyAxis_spec st pos v).2.2.2.2.2.2.2.1
        constructor
        · intro r hr
          rw [(ih (applyAxis st pos v) (pos + 1)).1 r hr, hsave]
        · intro r hr
          rw [(ih (applyAxis st pos v) (pos + 1)).2 r hr, hsave]
      · have hred : g1_axes_loop cfg st pos (some v :: rest) = .error st := by
          show (if cfg.configured.getD pos false = true then
              g1_axes_loop cfg (applyAxis st pos v) (pos + 1) rest
            else .error st) = .error st
          rw [if_neg hc]
        rw [hred]
        constructor
        · intro r hr
          cases hr
        · intro r hr
          injection hr with hr
          rw [← hr]

/-- A `SET_GCODE_OFFSET` step leaves `saved_states` untouched. -/
theorem sgo_step_saved (st : GCodeMoveState) (pos : Nat) (o adj : Option ℚ) :
    (sgo_step st pos o adj).1.saved_states = st.saved_states := by
  rcases o with _ | v
  · rcases adj with _ | a
    · rfl
    · rfl
  · rfl

/-- The `SET_GCODE_OFFSET` loop leaves `saved_states` untouched. -/
theorem sgo_loop_saved (ps : List (Option ℚ × Option ℚ)) :
    ∀ (st : GCodeMoveState) (pos : Nat),
      (sgo_loop st pos ps).1.saved_states = st.saved_states := by
  induction ps with
  | nil => intro st pos; rfl
  | cons p rest ih =>
    intro st pos
    show (sgo_loop (sgo_step st pos p.1 p.2).1 (pos + 1) rest).1.saved_states
      = st.saved_states
    rw [ih _ (pos + 1), sgo_step_saved]

/-- The state left behind by `cmd_G1` (on success or on error) carries the
original `saved_states`. -/
theorem cmd_G1_saved_any (cfg : GCodeConfig) (st : GCodeMoveState) (p : G1Params) :
    (∀ r, cmd_G1 cfg st p = .ok r → r.1.saved_states = st.saved_states)
    ∧ (∀ e, cmd_G1 cfg st p = .error e → e.2.saved_states = st.saved_states) := by
  constructor
  · intro r hr
    simp only [cmd_G1] at hr
    split at hr
    · cases hr
    · rename_i st1 heq
      have hse : (g1_apply_e st1 p.e).saved_states = st.saved_states := by
        rw [(g1_apply_e_spec st1 p.e).2.2.2.2.2.2.2.1,
          (g1_axes_loop_saved cfg p.axes st 0).1 st1 heq]
      split at hr
      · split at hr
        · cases hr
        · injection hr with h
          rw [← h]
          exact hse
      · injection hr with h
        rw [← h]
        exact hse
  · intro e he
    simp only [cmd_G1] at he
    split at he
    · rename_i st1 heq
      injection he with h
      rw [← h]
      exact (g1_axes_loop_saved cfg p.axes st 0).2 st1 heq
    · rename_i st1 heq
      have hse : (g1_apply_e st1 p.e).saved_states = st.saved_states := by
        rw [(g1_apply_e_spec st1 p.e).2.2.2.2.2.2.2.1,
          (g1_axes_loop_saved cfg p.axes st 0).1 st1 heq]
      split at he
      · split at he
        · injection he with h
          rw [← h]
          exact hse
        · cases he
      · cases he

/-- `cmd_RESTORE_GCODE_STATE` leaves `saved_states` untouched. -/
theorem cmd_RESTORE_saved (cfg : GCodeConfig) (st : GCodeMoveState) (name : String)
    (mv : Bool) (ms : Option ℚ) :
    ∀ r, cmd_RESTORE_GCODE_STATE cfg st name mv ms = .ok r →
      r.1.saved_states = st.saved_states := by
  intro r hr
  cases hl : st.saved_states.lookup name with
  | none => simp [cmd_RESTORE_GCODE_STATE, hl] at hr
  | some s =>
    rw [cmd_RESTORE_GCODE_STATE] at hr
    rw [hl] at hr
    cases mv with
    | false =>
      simp only [Bool.false_eq_true, if_false] at hr
      injection hr with hr
      rw [← hr]
    | true =>
      simp only [if_true] at hr
      injection hr with hr
      rw [← hr]

/-- Claim C9: `SAVE_GCODE_STATE` snapshots are never mutated afterwards: no
frontend command other than a `SAVE` under the same name changes what a
later lookup of that name returns (in particular `RESTORE_GCODE_STATE`'s
relative-E adjustment of `base_position` does not), and restoring the same
name twice in a row yields the identical state both times. -/
theorem saved_state_frame_spec (cfg : GCodeConfig) (st : GCodeMoveState) (name : String) :
    (∀ c : Cmd, (∀ n, c = Cmd.save n → n ≠ name) →
      (execCmd cfg st c).saved_states.lookup name = st.saved_states.lookup name)
    ∧ (∀ s1 out1, cmd_RESTORE_GCODE_STATE cfg st name false none = .ok (s1, out1) →
      cmd_RESTORE_GCODE_STATE cfg s1 name false none = .ok (s1, out1)) := by
  constructor
  · intro c hc
    cases c with
    | g1 p =>
      show (match cmd_G1 cfg st p with
        | .ok r => r.1
        | .error r => r.2).saved_states.lookup name = st.saved_states.lookup name
      cases hg : cmd_G1 cfg st p with
      | ok r => rw [(cmd_G1_saved_any cfg st p).1 r hg]
      | error e => rw [(cmd_G1_saved_any cfg st p).2 e hg]
    | g90 => rfl
    | g91 => rfl
    | m82 => rfl
    | m83 => rfl
    | g92 offsets =>
      show (cmd_G92 st offsets).saved_states.lookup name = st.saved_states.lookup name
      have hsv := (g92_loop_frame offsets st 0 offsets.length).2.2.2.2.2.2.2.1
      rw [cmd_G92]
      by_cases hall : (offsets.all (fun o => o.isNone)) = true
      · rw [if_pos hall]
        rw [hsv]
      · rw [if_neg hall]
        rw [hsv]
    | m220 S => rfl
    | m221 S => rfl
    | gcodeOffset offs adjs mv ms =>
      show (cmd_SET_GCODE_OFFSET st offs adjs mv ms).1.saved_states.lookup name
        = st.saved_states.lookup name
      rw [cmd_SET_GCODE_OFFSET]
      have hsv := sgo_loop_saved (offs.zip adjs) st 0
      cases mv with
      | false =>
        simp only [Bool.false_eq_true, if_false]
        rw [hsv]
      | true =>
        simp only [if_true]
        rw [hsv]
    | save n =>
      have hne : n ≠ name := hc n rfl
      have hbeq : (name == n) = false := by
        rw [beq_eq_false_iff_ne]
        exact fun h => hne h.symm
      show List.lookup name ((n,
        { absolute_coord := st.absolute_coord, absolute_extrude := st.absolute_extrude,
          base_position := st.base_position, last_position := st.last_position,
          homing_position := st.homing_position, speed := st.speed,
          speed_factor := st.speed_factor,
          extrude_factor := st.extrude_factor }) :: st.saved_states)
        = List.lookup name st.saved_states
      rw [List.lookup, hbeq]
    | restore n mv ms =>
      show (match cmd_RESTORE_GCODE_STATE cfg st n mv ms with
        | .ok r => r.1
        | .error _ => st).saved_states.lookup name = st.saved_states.lookup name
      cases hres : cmd_RESTORE_GCODE_STATE cfg st n mv ms with
      | error e => rfl
      | ok r =>
        rw [cmd_RESTORE_saved cfg st n mv ms r hres]
  · intro s1 out1 hres
    cases hl : st.saved_states.lookup name with
    | none => simp [cmd_RESTORE_GCODE_STATE, hl] at hres
    | some s =>
      rw [cmd_RESTORE_GCODE_STATE] at hres
      rw [hl] at hres
      simp only [Bool.false_eq_true, if_false] at hres
      injection hres with hres
      have hs1 : s1 = _ := (Prod.mk.injEq _ _ _ _).mp hres.symm |>.1
      have hout : out1 = none := ((Prod.mk.injEq _ _ _ _).mp hres.symm).2
      subst hout
      rw [cmd_RESTORE_GCODE_STATE]
      have hlook : s1.saved_states.lookup name = some s := by
        rw [hs1]
        exact hl
      rw [hlook]
      simp only [Bool.false_eq_true, if_false]
      rw [hs1]

/-- Witness for C9: a save, a move and a factor change do not affect the
stored snapshot, and an immediate second restore reproduces the first. -/
theorem saved_state_frame_spec_witness :
    ((execCmd { configured := [true, true, true], relative_e_restore := true }
        (cmd_SAVE_GCODE_STATE
          { absolute_coord := true, absolute_extrude := true,
            base_position := [0,0,0,0], last_position := [1,2,3,4],
            homing_position := [0,0,0,0], speed := 25, speed_factor := 1/60,
            extrude_factor := 1, saved_states := [] } "a")
        (Cmd.m220 200)).saved_states.lookup "a"
      = (cmd_SAVE_GCODE_STATE
          { absolute_coord := true, absolute_extrude := true,
            base_position := [0,0,0,0], last_position := [1,2,3,4],
            homing_position := [0,0,0,0], speed := 25, speed_factor := 1/60,
            extrude_factor := 1, saved_states := [] } "a").saved_states.lookup "a")
    ∧ (∀ s1 out1,
      cmd_RESTORE_GCODE_STATE { configured := [true, true, true], relative_e_restore := true }
        (cmd_SAVE_GCODE_STATE
          { absolute_coord := true, absolute_extrude := true,
            base_position := [0,0,0,0], last_position := [1,2,3,4],
            homing_position := [0,0,0,0], speed := 25, speed_factor := 1/60,
            extrude_factor := 1, saved_states := [] } "a") "a" false none = .ok (s1, out1) →
      cmd_RESTORE_GCODE_STATE { configured := [true, true, true], relative_e_restore := true }
        s1 "a" false none = .ok (s1, out1)) := by
  have h := saved_state_frame_spec
    { configured := [true, true, true], relative_e_restore := true }
    (cmd_SAVE_GCODE_STATE
      { absolute_coord := true, absolute_extrude := true,
        base_position := [0,0,0,0], last_position := [1,2,3,4],
        homing_position := [0,0,0,0], speed := 25, speed_factor := 1/60,
        extrude_factor := 1, saved_states := [] } "a") "a"
  exact ⟨h.1 (Cmd.m220 200) (fun n hn => by cases hn), h.2⟩

end Klipper
